import Mathlib

/-
  Verification development for the Glace interpreter (Go sources under src/).

  The development shallowly embeds the three interpreter stages:
  scanner (src/lexer/lexer.go), parser (src/parser/parser.go) and the
  tree-walking evaluator (evaluator files).  Go machine integers (int64) are
  modelled as Int with explicit two's-complement wrapping where the source can
  overflow; Go float64 is modelled by Rat (the spec declares precise IEEE-754
  semantics a non-goal, and no verified property depends on rounding);
  Go's mutable heap (environments, arrays, maps) is modelled as an explicit
  store indexed by allocation order.  Unbounded Go loops and recursion are
  modelled with a fuel parameter; fuel exhaustion is a distinguished
  `timeout` outcome, so genuine divergence of the Go code shows up as
  `timeout` at every fuel.
-/

namespace Glace

/-! ## Two's-complement int64 arithmetic (Go `int64`) -/

/-- Wrap an integer into the int64 range, as Go's two's-complement
arithmetic does on overflow. -/
def wrap64 (n : Int) : Int :=
  Int.emod (n + 9223372036854775808) 18446744073709551616 - 9223372036854775808

/-! ## AST (src/ast/ast.go)

Statements and expressions mirror the Go node structs field by field.
Source positions are elided: they feed only error-message text, which no
verified property inspects.  `StringInterpolation` is omitted: the parser
in src/parser/parser.go has no production that builds it. -/

mutual

inductive Stmt where
  | letStmt (name : String) (value : Expr)
  | mutStmt (name : String) (value : Expr)
  | assignStmt (name : String) (value : Expr)
  | indexAssignStmt (left index value : Expr)
  | exprStmt (e : Expr)
  | blockStmt (stmts : List Stmt)
  | returnStmt (values : List Expr)
  | ifStmt (cond : Expr) (cons : List Stmt)
      (elifs : List (Expr × List Stmt)) (alt : Option (List Stmt))
  | loopStmt (cond : Option Expr) (iterator : String)
      (iterable : Option Expr) (body : List Stmt)
  | breakStmt
  | continueStmt
  | fnDecl (name : String) (params : List String) (body : List Stmt)
  | matchStmt (subject : Expr) (arms : List (Expr × Option Expr × List Stmt))
  | testBlock (desc : String) (body : List Stmt)

inductive Expr where
  | intLit (n : Int)
  | floatLit (q : Rat)
  | strLit (s : String)
  | boolLit (b : Bool)
  | noneLit
  | ident (name : String)
  | binary (op : String) (l r : Expr)
  | unary (op : String) (e : Expr)
  | call (fn : Expr) (args : List Expr)
  | indexE (l i : Expr)
  | dot (l : Expr) (field : String)
  | safeAccess (l : Expr) (field : String)
  | arrayLit (elems : List Expr)
  | mapLit (keys : List Expr) (vals : List Expr)
  | fnLit (params : List String) (body : List Stmt)
  | rangeE (start stop : Expr) (step : Option Expr)
  | pipeline (l : Expr) (rfn : Expr) (rargs : List Expr)
  | coalesce (l r : Expr)
  | wildcard
  /-- A Go `nil` Expression (the parser stores one when an assignment's
  right-hand side fails to parse); `Eval` rejects it via its default case. -/
  | nilE

end

/-! ## Runtime values and the store (src/unnamed/part_001)

Go's `*ArrayValue`, `*MapValue` and `*Environment` are mutable heap
objects; values hold store indices for them. -/

inductive Value where
  | vint (n : Int)
  | vfloat (q : Rat)
  | vbool (b : Bool)
  | vstr (s : String)
  | vnone
  | varr (id : Nat)
  | vmap (id : Nat)
  | vrange (start stop step : Int)
  | vfn (name : String) (params : List String) (body : List Stmt) (envId : Nat)
  | vbuiltin (name : String)

/-- A binding in one scope: value plus mutability flag. -/
structure EnvData where
  store : List (String × Value × Bool)
  parent : Option Nat

/-- The mutable heap: environments, array contents, map contents,
indexed by allocation order. -/
structure St where
  envs : List EnvData
  arrays : List (List Value)
  maps : List (List (String × Value))

/-- `Value.Type()` from src/unnamed/part_001. -/
def typeName : Value → String
  | .vint _ => "int"
  | .vfloat _ => "float"
  | .vbool _ => "bool"
  | .vstr _ => "string"
  | .vnone => "none"
  | .varr _ => "array"
  | .vmap _ => "map"
  | .vrange _ _ _ => "range"
  | .vfn _ _ _ _ => "fn"
  | .vbuiltin _ => "builtin"

/-- `RangeValue.Len` from src/unnamed/part_001 (Go `/` truncates toward
zero, i.e. `Int.tdiv`). -/
def rangeLen (start stop step : Int) : Int :=
  if step > 0 ∧ stop > start then (stop - start + step - 1).tdiv step
  else if step < 0 ∧ start > stop then (start - stop - step - 1).tdiv (-step)
  else 0

/-- `RangeValue.At` from src/unnamed/part_001. -/
def rangeAt (start step i : Int) : Int := wrap64 (start + i * step)

/-- Convenience constructors NewInt/NewBool etc. are identities on the
constructors; NewArray allocates. -/
def allocArray (s : St) (vs : List Value) : Value × St :=
  (.varr s.arrays.length, { s with arrays := s.arrays ++ [vs] })

def allocMap (s : St) (pairs : List (String × Value)) : Value × St :=
  (.vmap s.maps.length, { s with maps := s.maps ++ [pairs] })

/-! ## Environment operations (src/unnamed/part_001, Environment) -/

def storeLookup : List (String × Value × Bool) → String → Option (Value × Bool)
  | [], _ => none
  | (n, v, m) :: rest, name => if n = name then some (v, m) else storeLookup rest name

def storeReplace : List (String × Value × Bool) → String → Value →
    List (String × Value × Bool)
  | [], _, _ => []
  | (n, v, m) :: rest, name, nv =>
    if n = name then (n, nv, true) :: rest else (n, v, m) :: storeReplace rest name nv

def listSet {α : Type} : List α → Nat → α → List α
  | [], _, _ => []
  | _ :: rest, 0, a => a :: rest
  | x :: rest, i + 1, a => x :: listSet rest i a

/-- `Environment.Get`: walk the parent chain.  Parent links always point to
earlier allocations, so a fuel of `id + 1` covers every reachable chain;
the fuel-out branch is unreachable on states the evaluator builds. -/
def envGetGo (envs : List EnvData) : Nat → Nat → String → Option (Value × Bool)
  | 0, _, _ => none
  | fuel + 1, id, name =>
    match envs.get? id with
    | none => none
    | some e =>
      match storeLookup e.store name with
      | some vb => some vb
      | none =>
        match e.parent with
        | none => none
        | some p => envGetGo envs fuel p name

def envGet (s : St) (id : Nat) (name : String) : Option Value :=
  (envGetGo s.envs (id + 1) id name).map Prod.fst

/-- `Environment.Define`: insert into the current scope only; error if the
name is already present in this scope. -/
def envDefine (s : St) (id : Nat) (name : String) (v : Value) (mtb : Bool) :
    Except String St :=
  match s.envs.get? id with
  | none => .error "invalid environment"
  | some e =>
    match storeLookup e.store name with
    | some _ => .error ("variable '" ++ name ++ "' is already defined in this scope")
    | none =>
      .ok { s with envs := listSet s.envs id ⟨e.store ++ [(name, v, mtb)], e.parent⟩ }

/-- Several call sites in the Go evaluator ignore `Define`'s error return
(parameter binding, for-in iterators, fn declarations, identifier
patterns); this mirrors that. -/
def defineIgnore (s : St) (id : Nat) (name : String) (v : Value) (mtb : Bool) : St :=
  match envDefine s id name v mtb with
  | .ok s' => s'
  | .error _ => s

/-- `Environment.Set`: walk the chain; overwrite if found mutable, error if
found immutable or not found at all.  Fuel as in `envGetGo`. -/
def envSetGo (s : St) : Nat → Nat → String → Value → Except String St
  | 0, _, _, _ => .error "invalid environment"
  | fuel + 1, id, name, v =>
    match s.envs.get? id with
    | none => .error "invalid environment"
    | some e =>
      match storeLookup e.store name with
      | some (_, mtb) =>
        if mtb then
          .ok { s with envs := listSet s.envs id ⟨storeReplace e.store name v, e.parent⟩ }
        else
          .error ("cannot assign to immutable variable '" ++ name ++ "'")
      | none =>
        match e.parent with
        | none => .error ("undefined variable '" ++ name ++ "'")
        | some p => envSetGo s fuel p name v

def envSet (s : St) (id : Nat) (name : String) (v : Value) : Except String St :=
  envSetGo s (id + 1) id name v

/-- `NewEnclosedEnvironment`: allocate a child scope. -/
def allocEnv (s : St) (parent : Nat) : Nat × St :=
  (s.envs.length, { s with envs := s.envs ++ [⟨[], some parent⟩] })

/-! ## Truthiness and structural equality -/

/-- `IsTruthy` from src/unnamed/part_001: none and false are falsy, as are
zero ints, empty strings and empty arrays; everything else (floats, maps,
ranges, functions, builtins) is truthy. -/
def IsTruthy (s : St) (v : Value) : Bool :=
  match v with
  | .vnone => false
  | .vbool b => b
  | .vint n => n ≠ 0
  | .vstr str => str ≠ ""
  | .varr id => ((s.arrays.get? id).getD []).length > 0
  | _ => true

/-- `Value.Equals`, structural through the store.  Go's recursion has no
fuel; callers pass a fuel exceeding any acyclic nesting depth.  Go compares
functions and builtins by pointer identity, which the embedding cannot
express; closures are compared structurally instead (no verified property
uses function equality). -/
def valueEquals (s : St) : Nat → Value → Value → Bool
  | _, .vint a, .vint b => decide (a = b)
  | _, .vfloat a, .vfloat b => decide (a = b)
  | _, .vbool a, .vbool b => a == b
  | _, .vstr a, .vstr b => a == b
  | _, .vnone, .vnone => true
  | _, .vrange a b c, .vrange d e f => decide (a = d) && decide (b = e) && decide (c = f)
  | _, .vbuiltin a, .vbuiltin b => a == b
  | fuel + 1, .varr a, .varr b =>
    let la := (s.arrays.get? a).getD []
    let lb := (s.arrays.get? b).getD []
    (la.length == lb.length) &&
      (List.zip la lb).all (fun p => valueEquals s fuel p.1 p.2)
  | fuel + 1, .vmap a, .vmap b =>
    let la := (s.maps.get? a).getD []
    let lb := (s.maps.get? b).getD []
    (la.length == lb.length) &&
      la.all (fun p => match storeLookupV lb p.1 with
        | some w => valueEquals s fuel p.2 w
        | none => false)
  | _, .vfn _ p1 _ e1, .vfn _ p2 _ e2 =>
      -- Go compares closures by pointer identity, which a value embedding
      -- cannot observe; same captured scope and parameter list is the
      -- closest observable proxy.  No verified property compares closures.
      p1 == p2 && e1 == e2
  | _, _, _ => false
where
  storeLookupV : List (String × Value) → String → Option Value
    | [], _ => none
    | (k, v) :: rest, key => if k = key then some v else storeLookupV rest key

/-- Default equality fuel: an acyclic heap cannot nest deeper than the
number of allocated containers. -/
def eqFuel (s : St) : Nat := s.arrays.length + s.maps.length + 1

/-! ## Evaluator outcomes (src/unnamed/part_000)

Go's `(Value, error)` pair: the error is either a control-flow signal or a
runtime error.  `timeout` is the fuel artifact. -/

inductive Exn where
  | retSig (vs : List Value)
  | brkSig
  | contSig
  | rerr (msg : String)

inductive Res where
  | timeout
  | ok (v : Value) (s : St)
  | exn (e : Exn) (s : St)

inductive ResL where
  | timeout
  | oks (vs : List Value) (s : St)
  | exn (e : Exn) (s : St)

def Res.valueOf : Res → Option Value
  | .ok v _ => some v
  | _ => none

def Res.errMsg : Res → Option String
  | .exn (.rerr m) _ => some m
  | _ => none

/-! ## The evaluator knot

All recursion of the Go evaluator (nested `Eval` calls, loop iterations,
call-stack growth) is threaded through `EFns`; `mkE fuel` ties the knot with
`fuel` unfoldings. -/

structure EFns where
  evalStmt : Stmt → Nat → St → Res
  evalExpr : Expr → Nat → St → Res
  condLoop : Option Expr → List Stmt → Nat → St → Res
  rangeLoop : String → List Stmt → Int → Int → Int → Nat → St → Res
  callFn : Value → List Value → St → Res

/-- `evalIntBinaryOp` from src/unnamed/part_000.  +,-,* wrap like Go int64;
/ and % truncate toward zero and error on a zero divisor. -/
def evalIntBinaryOp (op : String) (l r : Int) : Except String Value :=
  if op = "+" then .ok (.vint (wrap64 (l + r)))
  else if op = "-" then .ok (.vint (wrap64 (l - r)))
  else if op = "*" then .ok (.vint (wrap64 (l * r)))
  else if op = "/" then
    if r = 0 then .error "division by zero" else .ok (.vint (wrap64 (l.tdiv r)))
  else if op = "%" then
    if r = 0 then .error "modulo by zero" else .ok (.vint (l.tmod r))
  else if op = "<" then .ok (.vbool (decide (l < r)))
  else if op = ">" then .ok (.vbool (decide (l > r)))
  else if op = "<=" then .ok (.vbool (decide (l ≤ r)))
  else if op = ">=" then .ok (.vbool (decide (l ≥ r)))
  else if op = "==" then .ok (.vbool (decide (l = r)))
  else if op = "!=" then .ok (.vbool (decide (l ≠ r)))
  else .error ("unknown operator '" ++ op ++ "' for int")

/-- `evalFloatBinaryOp` from src/unnamed/part_000 (float64 modelled by Rat;
note there is no `%` case for floats in the source either). -/
def evalFloatBinaryOp (op : String) (l r : Rat) : Except String Value :=
  if op = "+" then .ok (.vfloat (l + r))
  else if op = "-" then .ok (.vfloat (l - r))
  else if op = "*" then .ok (.vfloat (l * r))
  else if op = "/" then
    if r = 0 then .error "division by zero" else .ok (.vfloat (l / r))
  else if op = "<" then .ok (.vbool (decide (l < r)))
  else if op = ">" then .ok (.vbool (decide (l > r)))
  else if op = "<=" then .ok (.vbool (decide (l ≤ r)))
  else if op = ">=" then .ok (.vbool (decide (l ≥ r)))
  else if op = "==" then .ok (.vbool (decide (l = r)))
  else if op = "!=" then .ok (.vbool (decide (l ≠ r)))
  else .error ("unknown operator '" ++ op ++ "' for float")

def liftPure (e : Except String Value) (s : St) : Res :=
  match e with
  | .ok v => .ok v s
  | .error m => .exn (.rerr m) s

/-- The tail of `evalBinaryExpression` reached when no arithmetic
interpretation applies: `==`/`!=` fall back to structural equality, anything
else is an unsupported-operator runtime error. -/
def binFallback (s : St) (op : String) (l r : Value) : Res :=
  if op = "==" then .ok (.vbool (valueEquals s (eqFuel s) l r)) s
  else if op = "!=" then .ok (.vbool (! valueEquals s (eqFuel s) l r)) s
  else .exn (.rerr ("unsupported operator '" ++ op ++ "' for types '" ++
    typeName l ++ "' and '" ++ typeName r ++ "'")) s

/-- `evalBinaryExpression` from src/unnamed/part_000: short-circuit `&&`/`||`
first (returning the deciding operand value itself), then the numeric /
string / equality dispatch with Go's exact fall-through structure. -/
def evalBinaryExpressionF (fns : EFns) (op : String) (le re : Expr)
    (env : Nat) (s : St) : Res :=
  match fns.evalExpr le env s with
  | .timeout => .timeout
  | .exn e s' => .exn e s'
  | .ok left s1 =>
    if op = "&&" then
      if IsTruthy s1 left = false then .ok left s1 else fns.evalExpr re env s1
    else if op = "||" then
      if IsTruthy s1 left then .ok left s1 else fns.evalExpr re env s1
    else
      match fns.evalExpr re env s1 with
      | .timeout => .timeout
      | .exn e s' => .exn e s'
      | .ok right s2 =>
        match left, right with
        | .vint l, .vint r => liftPure (evalIntBinaryOp op l r) s2
        | .vint l, .vfloat r => liftPure (evalFloatBinaryOp op (l : Rat) r) s2
        | .vfloat l, .vfloat r => liftPure (evalFloatBinaryOp op l r) s2
        | .vfloat l, .vint r => liftPure (evalFloatBinaryOp op l (r : Rat)) s2
        | .vfloat _, r =>
          .exn (.rerr ("cannot apply '" ++ op ++ "' to float and " ++ typeName r)) s2
        | .vstr l, .vstr r =>
          if op = "+" then .ok (.vstr (l ++ r)) s2
          else binFallback s2 op (.vstr l) (.vstr r)
        | l, r => binFallback s2 op l r

/-- `evalUnaryExpression` from src/unnamed/part_000. -/
def evalUnaryExpressionF (fns : EFns) (op : String) (e : Expr)
    (env : Nat) (s : St) : Res :=
  match fns.evalExpr e env s with
  | .timeout => .timeout
  | .exn ex s' => .exn ex s'
  | .ok v s' =>
    if op = "-" then
      match v with
      | .vint n => .ok (.vint (wrap64 (-n))) s'
      | .vfloat q => .ok (.vfloat (-q)) s'
      | _ => .exn (.rerr ("cannot negate '" ++ typeName v ++ "'")) s'
    else if op = "!" then .ok (.vbool (! IsTruthy s' v)) s'
    else .exn (.rerr ("unknown unary operator '" ++ op ++ "'")) s'

/-- Argument-list evaluation, left to right (the loops in
`evalCallExpression` / `evalArrayLiteral`). -/
def evalExprListF (fns : EFns) : List Expr → Nat → St → ResL
  | [], _, s => .oks [] s
  | e :: rest, env, s =>
    match fns.evalExpr e env s with
    | .timeout => .timeout
    | .exn ex s' => .exn ex s'
    | .ok v s' =>
      match evalExprListF fns rest env s' with
      | .timeout => .timeout
      | .exn ex s'' => .exn ex s''
      | .oks vs s'' => .oks (v :: vs) s''

/-- The parameter-binding loop of `callFunction` (Define errors ignored, as
in the source). -/
def bindParams (s : St) (envId : Nat) : List String → List Value → St
  | p :: ps, a :: rest => bindParams (defineIgnore s envId p a false) envId ps rest
  | _, _ => s

/-- Result of one effectful sort comparison. -/
inductive SortLessRes where
  | timeout
  | done (lt : Bool) (s : St) (e : Option Exn)

/-- Result of an effectful sort pass. -/
inductive SortRes where
  | timeout
  | done (l : List Value) (s : St) (e : Option Exn)

/-- The comparison used by one-argument `sort` (builtinSort's
`sort.SliceStable` less function without a comparator): int/float/string
cases, anything else records the first error. -/
def sortLessDefault (a b : Value) : Except String Bool :=
  match a, b with
  | .vint x, .vint y => .ok (decide (x < y))
  | .vint x, .vfloat y => .ok (decide ((x : Rat) < y))
  | .vfloat x, .vfloat y => .ok (decide (x < y))
  | .vfloat x, .vint y => .ok (decide (x < (y : Rat)))
  | .vstr x, .vstr y => .ok (decide (x < y))
  | _, _ => .error ("sort: cannot compare " ++ typeName a ++ " and " ++ typeName b)

/-- The one-argument form's less function lifted to the effectful shape
(state untouched; first error recorded, later comparisons skipped as Go's
closure does via `sortErr`). -/
def lessDefaultSt (a b : Value) (s : St) (e : Option Exn) : SortLessRes :=
  match e with
  | some ex => .done false s (some ex)
  | none =>
    match sortLessDefault a b with
    | .ok lt => .done lt s none
    | .error m => .done false s (some (.rerr m))

/-- One effectful comparison in comparator-form `sort`: skipped once an
error is recorded (Go checks `sortErr` first), otherwise the user
comparator is invoked via `callFunction` and its numeric result
interpreted as `< 0`. -/
def lessCmp (fns : EFns) (cmp : Value) (a b : Value) (s : St) (e : Option Exn) :
    SortLessRes :=
  match e with
  | some ex => .done false s (some ex)
  | none =>
    match fns.callFn cmp [a, b] s with
    | .timeout => .timeout
    | .exn ex s' => .done false s' (some ex)
    | .ok v s' =>
      match v with
      | .vint n => .done (decide (n < 0)) s' none
      | .vfloat q => .done (decide (q < 0)) s' none
      | _ =>
        .done false s'
          (some (.rerr ("sort comparator must return a number, got " ++ typeName v)))

/-- Stable insertion of one element, driven by an effectful less function.
Go's `sort.SliceStable` is a standard-library routine outside this
repository; it is modelled as a stable insertion sort over the same less
function (same elements, same stability contract). -/
def insertSt (less : Value → Value → St → Option Exn → SortLessRes)
    (x : Value) : List Value → St → Option Exn → SortRes
  | [], s, e => .done [x] s e
  | y :: ys, s, e =>
    match less x y s e with
    | .timeout => .timeout
    | .done lt s' e' =>
      if lt then .done (x :: y :: ys) s' e'
      else
        match insertSt less x ys s' e' with
        | .timeout => .timeout
        | .done zs s'' e'' => .done (y :: zs) s'' e''

/-- The insertion-sort pass over the copied slice. -/
def sortSt (less : Value → Value → St → Option Exn → SortLessRes) :
    List Value → List Value → St → Option Exn → SortRes
  | acc, [], s, e => .done acc s e
  | acc, x :: xs, s, e =>
    match insertSt less x acc s e with
    | .timeout => .timeout
    | .done acc' s' e' => sortSt less acc' xs s' e'

/-- The tail of `builtinSort`: run the stable sort of the copied elements
with the given less function, surface the recorded error if any, else
return a freshly allocated array of the sorted copy. -/
def sortOutcome (less : Value → Value → St → Option Exn → SortLessRes)
    (elems : List Value) (s : St) : Res :=
  match sortSt less [] elems s none with
  | .timeout => .timeout
  | .done _ s' (some ex) => .exn ex s'
  | .done sorted s' none =>
    let (a, s'') := allocArray s' sorted
    .ok a s''

/-- `builtinSort` from src/evaluator/builtins_ho.go: arity and type checks,
copy of the elements, stable sort of the copy (default or comparator-driven
less), error surfaced if a comparison failed, else a freshly allocated
result array. -/
def builtinSortFn (fns : EFns) (args : List Value) (s : St) : Res :=
  if args.length < 1 ∨ args.length > 2 then
    .exn (.rerr ("sort expects 1 or 2 arguments (array [, fn]), got " ++
      toString args.length)) s
  else
    match args.head? with
    | none => .exn (.rerr "sort expects 1 or 2 arguments (array [, fn]), got 0") s
    | some a0 =>
      match a0 with
      | .varr id =>
        match s.arrays.get? id with
        | none => .exn (.rerr "panic: invalid array reference") s
        | some elems =>
          match args with
          | [_, f] =>
            match f with
            | .vfn _ _ _ _ | .vbuiltin _ => sortOutcome (lessCmp fns f) elems s
            | _ =>
              .exn (.rerr ("sort: second argument must be a function, got " ++
                typeName f)) s
          | _ => sortOutcome lessDefaultSt elems s
      | _ =>
        .exn (.rerr ("sort: first argument must be an array, got " ++
          typeName a0)) s

/-- Builtin dispatch.  Only `sort` (src/evaluator/builtins_ho.go) is
modelled: the spec (§1) declares the builtin library an external
collaborator, and no other verified property depends on another builtin. -/
def callBuiltinF (fns : EFns) (name : String) (args : List Value) (s : St) : Res :=
  if name = "sort" then builtinSortFn fns args s
  else .exn (.rerr ("builtin '" ++ name ++ "' is not modelled")) s

/-- `callFunction` from src/unnamed/part_000: arity check, child scope of
the captured environment, parameter binding, body evaluation, and
interception of the return signal (0 values → none, 1 value → the value
itself, more → a freshly allocated array). -/
def callFunctionF (fns : EFns) (fn : Value) (args : List Value) (s : St) : Res :=
  match fn with
  | .vfn nm params body envId =>
    if args.length ≠ params.length then
      .exn (.rerr (nm ++ "() takes " ++ toString params.length ++
        " arguments, got " ++ toString args.length)) s
    else
      let fnEnv := s.envs.length
      let s1 : St := { s with envs := s.envs ++ [⟨[], some envId⟩] }
      let s2 := bindParams s1 fnEnv params args
      match fns.evalStmt (.blockStmt body) fnEnv s2 with
      | .timeout => .timeout
      | .exn (.retSig vs) s' =>
        match vs with
        | [] => .ok .vnone s'
        | [v] => .ok v s'
        | _ =>
          let (a, s'') := allocArray s' vs
          .ok a s''
      | .exn e s' => .exn e s'
      | .ok v s' => .ok v s'
  | .vbuiltin name => callBuiltinF fns name args s
  | _ => .exn (.rerr ("'" ++ typeName fn ++ "' is not callable")) s

/-- `evalIdentifier` from src/unnamed/part_000. -/
def evalIdentifierF (name : String) (env : Nat) (s : St) : Res :=
  match envGet s env name with
  | some v => .ok v s
  | none => .exn (.rerr ("undefined variable '" ++ name ++ "'")) s

/-- `evalProgram` from src/unnamed/part_000: statements in order, result is
the last statement's value (none for an empty program), any error
propagates. -/
def evalProgramGo (fns : EFns) : Value → List Stmt → Nat → St → Res
  | acc, [], _, s => .ok acc s
  | _, st :: rest, env, s =>
    match fns.evalStmt st env s with
    | .timeout => .timeout
    | .exn e s' => .exn e s'
    | .ok v s' => evalProgramGo fns v rest env s'

def evalProgramF (fns : EFns) (stmts : List Stmt) (env : Nat) (s : St) : Res :=
  evalProgramGo fns .vnone stmts env s

/-- `evalBlockStatement` from src/unnamed/part_000.  Note: the statements
are evaluated directly in the environment handed in — the function creates
no child scope. -/
def evalBlockGo (fns : EFns) : Value → List Stmt → Nat → St → Res
  | acc, [], _, s => .ok acc s
  | _, st :: rest, env, s =>
    match fns.evalStmt st env s with
    | .timeout => .timeout
    | .exn e s' => .exn e s'
    | .ok v s' => evalBlockGo fns v rest env s'

def evalBlockStatementF (fns : EFns) (stmts : List Stmt) (env : Nat) (s : St) : Res :=
  evalBlockGo fns .vnone stmts env s

/-- `evalReturnStatement`: evaluate each return expression, raise the
return signal. -/
def evalReturnStatementF (fns : EFns) (values : List Expr) (env : Nat) (s : St) : Res :=
  match evalExprListF fns values env s with
  | .timeout => .timeout
  | .exn e s' => .exn e s'
  | .oks vs s' => .exn (.retSig vs) s'

/-- The elif chain of `evalIfStatement`. -/
def evalElifsF (fns : EFns) : List (Expr × List Stmt) → Option (List Stmt) →
    Nat → St → Res
  | [], alt, env, s =>
    match alt with
    | some b => fns.evalStmt (.blockStmt b) env s
    | none => .ok .vnone s
  | (c, b) :: rest, alt, env, s =>
    match fns.evalExpr c env s with
    | .timeout => .timeout
    | .exn e s' => .exn e s'
    | .ok cv s' =>
      if IsTruthy s' cv then fns.evalStmt (.blockStmt b) env s'
      else evalElifsF fns rest alt env s'

/-- `evalIfStatement` from src/unnamed/part_000: the branch blocks are
evaluated in the current environment (no child scope). -/
def evalIfStatementF (fns : EFns) (cond : Expr) (cons : List Stmt)
    (elifs : List (Expr × List Stmt)) (alt : Option (List Stmt))
    (env : Nat) (s : St) : Res :=
  match fns.evalExpr cond env s with
  | .timeout => .timeout
  | .exn e s' => .exn e s'
  | .ok cv s' =>
    if IsTruthy s' cv then fns.evalStmt (.blockStmt cons) env s'
    else evalElifsF fns elifs alt env s'

/-- One conditional/infinite-loop iteration of `evalLoopStatement`
(condition in the outer environment, fresh child scope per iteration,
break/continue consumed). -/
def condLoopF (fns : EFns) (cond : Option Expr) (body : List Stmt)
    (env : Nat) (s : St) : Res :=
  let run (s : St) : Res :=
    let (loopEnv, s1) := allocEnv s env
    match fns.evalStmt (.blockStmt body) loopEnv s1 with
    | .timeout => .timeout
    | .exn .brkSig s' => .ok .vnone s'
    | .exn .contSig s' => fns.condLoop cond body env s'
    | .exn e s' => .exn e s'
    | .ok _ s' => fns.condLoop cond body env s'
  match cond with
  | none => run s
  | some c =>
    match fns.evalExpr c env s with
    | .timeout => .timeout
    | .exn e s' => .exn e s'
    | .ok cv s' => if IsTruthy s' cv then run s' else .ok .vnone s'

/-- The array arm of `evalForInLoop`: iterate the snapshot of the elements,
fresh child scope per iteration, iterator defined immutably (Define error
ignored as in the source). -/
def arrayForInF (fns : EFns) (iter : String) (body : List Stmt) :
    List Value → Nat → St → Res
  | [], _, s => .ok .vnone s
  | elem :: rest, env, s =>
    let (loopEnv, s1) := allocEnv s env
    let s2 := defineIgnore s1 loopEnv iter elem false
    match fns.evalStmt (.blockStmt body) loopEnv s2 with
    | .timeout => .timeout
    | .exn .brkSig s' => .ok .vnone s'
    | .exn .contSig s' => arrayForInF fns iter body rest env s'
    | .exn e s' => .exn e s'
    | .ok _ s' => arrayForInF fns iter body rest env s'

/-- The range arm of `evalForInLoop`: Go's
`for i := iter.Start; i < iter.End; i += iter.Step` with int64 wrap on the
increment.  The `i < End` guard is used regardless of the step's sign. -/
def rangeLoopF (fns : EFns) (iter : String) (body : List Stmt)
    (i endV step : Int) (env : Nat) (s : St) : Res :=
  if i < endV then
    let (loopEnv, s1) := allocEnv s env
    let s2 := defineIgnore s1 loopEnv iter (.vint i) false
    match fns.evalStmt (.blockStmt body) loopEnv s2 with
    | .timeout => .timeout
    | .exn .brkSig s' => .ok .vnone s'
    | .exn .contSig s' => fns.rangeLoop iter body (wrap64 (i + step)) endV step env s'
    | .exn e s' => .exn e s'
    | .ok _ s' => fns.rangeLoop iter body (wrap64 (i + step)) endV step env s'
  else .ok .vnone s

/-- `evalForInLoop` from src/unnamed/part_000: dispatch on the evaluated
iterable. -/
def evalForInLoopF (fns : EFns) (iter : String) (body : List Stmt)
    (iterable : Value) (env : Nat) (s : St) : Res :=
  match iterable with
  | .varr id => arrayForInF fns iter body ((s.arrays.get? id).getD []) env s
  | .vrange a b st => fns.rangeLoop iter body a b st env s
  | _ => .exn (.rerr ("cannot iterate over '" ++ typeName iterable ++ "'")) s

/-- `evalLoopStatement` from src/unnamed/part_000: a for-in loop evaluates
its iterable exactly once, other shapes run the conditional/infinite loop
framework. -/
def evalLoopStatementF (fns : EFns) (cond : Option Expr) (iter : String)
    (iterable : Option Expr) (body : List Stmt) (env : Nat) (s : St) : Res :=
  if iter ≠ "" then
    match iterable with
    | none => .exn (.rerr "panic: for-in loop without iterable") s
    | some it =>
      match fns.evalExpr it env s with
      | .timeout => .timeout
      | .exn e s' => .exn e s'
      | .ok v s' => evalForInLoopF fns iter body v env s'
  else fns.condLoop cond body env s

/-- Result of a pattern-match attempt (Go's `(bool, error)`). -/
inductive MatchRes where
  | timeout
  | done (matched : Bool) (s : St)
  | exn (e : Exn) (s : St)

/-- Result of the map-literal pair loop. -/
inductive MapPairsRes where
  | timeout
  | done (pairs : List (String × Value)) (s : St)
  | exnRes (e : Exn) (s : St)

/-- Lookup in a map's pair list (the Go `map[string]Value` read). -/
def mapLookup : List (String × Value) → String → Option Value
  | [], _ => none
  | (k, v) :: rest, key => if k = key then some v else mapLookup rest key

/-- Insert-or-overwrite in a map's pair list (the Go map write). -/
def mapInsert : List (String × Value) → String → Value → List (String × Value)
  | [], key, v => [(key, v)]
  | (k, w) :: rest, key, v =>
    if k = key then (k, v) :: rest else (k, w) :: mapInsert rest key v

/-- `matchPattern` from src/unnamed/part_000.  Identifier patterns define
the subject into the *surrounding* environment (Define error ignored);
range patterns evaluate their bounds and test the half-open interval;
unknown pattern shapes do not match.  (There is no float-literal case in
the source.) -/
def matchPatternF (fns : EFns) (pattern : Expr) (subject : Value)
    (env : Nat) (s : St) : MatchRes :=
  match pattern with
  | .wildcard => .done true s
  | .intLit n =>
    match subject with
    | .vint m => .done (decide (m = n)) s
    | _ => .done false s
  | .strLit str =>
    match subject with
    | .vstr t => .done (decide (t = str)) s
    | _ => .done false s
  | .boolLit b =>
    match subject with
    | .vbool c => .done (decide (c = b)) s
    | _ => .done false s
  | .noneLit =>
    match subject with
    | .vnone => .done true s
    | _ => .done false s
  | .rangeE startE endE _ =>
    match fns.evalExpr startE env s with
    | .timeout => .timeout
    | .exn e s' => .exn e s'
    | .ok sv s1 =>
      match fns.evalExpr endE env s1 with
      | .timeout => .timeout
      | .exn e s' => .exn e s'
      | .ok ev s2 =>
        match subject with
        | .vint x =>
          match sv, ev with
          | .vint a, .vint b => .done (decide (a ≤ x ∧ x < b)) s2
          | _, _ => .done false s2
        | _ => .done false s2
  | .ident name => .done true (defineIgnore s env name subject false)
  | _ => .done false s

/-- The arm loop of `evalMatchStatement`: first matching arm (pattern, then
guard) wins; its body is evaluated in the current environment. -/
def matchArmsF (fns : EFns) (subject : Value) :
    List (Expr × Option Expr × List Stmt) → Nat → St → Res
  | [], _, s => .ok .vnone s
  | (pat, guard, body) :: rest, env, s =>
    match matchPatternF fns pat subject env s with
    | .timeout => .timeout
    | .exn e s' => .exn e s'
    | .done false s' => matchArmsF fns subject rest env s'
    | .done true s' =>
      match guard with
      | none => fns.evalStmt (.blockStmt body) env s'
      | some g =>
        match fns.evalExpr g env s' with
        | .timeout => .timeout
        | .exn e s'' => .exn e s''
        | .ok gv s'' =>
          if IsTruthy s'' gv then fns.evalStmt (.blockStmt body) env s''
          else matchArmsF fns subject rest env s''

/-- `evalMatchStatement` from src/unnamed/part_000. -/
def evalMatchStatementF (fns : EFns) (subject : Expr)
    (arms : List (Expr × Option Expr × List Stmt)) (env : Nat) (s : St) : Res :=
  match fns.evalExpr subject env s with
  | .timeout => .timeout
  | .exn e s' => .exn e s'
  | .ok sv s' => matchArmsF fns sv arms env s'

/-- `evalIndexExpression` from src/unnamed/part_000. -/
def evalIndexExpressionF (fns : EFns) (le ie : Expr) (env : Nat) (s : St) : Res :=
  match fns.evalExpr le env s with
  | .timeout => .timeout
  | .exn e s' => .exn e s'
  | .ok left s1 =>
    match fns.evalExpr ie env s1 with
    | .timeout => .timeout
    | .exn e s' => .exn e s'
    | .ok index s2 =>
      match left with
      | .varr id =>
        match index with
        | .vint i =>
          let elems := (s2.arrays.get? id).getD []
          if i < 0 ∨ i ≥ elems.length then
            .exn (.rerr ("index " ++ toString i ++ " out of bounds (len " ++
              toString elems.length ++ ")")) s2
          else
            match elems.get? i.toNat with
            | some v => .ok v s2
            | none => .exn (.rerr "panic: index") s2
        | _ => .exn (.rerr "array index must be an integer") s2
      | .vmap id =>
        match index with
        | .vstr key =>
          match mapLookup ((s2.maps.get? id).getD []) key with
          | some v => .ok v s2
          | none => .ok .vnone s2
        | _ => .exn (.rerr "map key must be a string") s2
      | .vrange a b st =>
        match index with
        | .vint i =>
          if i < 0 ∨ i ≥ rangeLen a b st then
            .exn (.rerr ("range index " ++ toString i ++ " out of bounds")) s2
          else .ok (.vint (rangeAt a st i)) s2
        | _ => .exn (.rerr "range index must be an integer") s2
      | .vstr str =>
        match index with
        | .vint i =>
          if i < 0 ∨ i ≥ str.length then
            .exn (.rerr ("string index " ++ toString i ++ " out of bounds")) s2
          else
            match str.toList.get? i.toNat with
            | some c => .ok (.vstr (String.mk [c])) s2
            | none => .exn (.rerr "panic: index") s2
        | _ => .exn (.rerr "string index must be an integer") s2
      | _ => .exn (.rerr ("cannot index into '" ++ typeName left ++ "'")) s2

/-- `evalDotExpression` from src/unnamed/part_000: maps only; a missing
field is `none`. -/
def evalDotExpressionF (fns : EFns) (le : Expr) (field : String)
    (env : Nat) (s : St) : Res :=
  match fns.evalExpr le env s with
  | .timeout => .timeout
  | .exn e s' => .exn e s'
  | .ok left s1 =>
    match left with
    | .vmap id =>
      match mapLookup ((s1.maps.get? id).getD []) field with
      | some v => .ok v s1
      | none => .ok .vnone s1
    | _ =>
      .exn (.rerr ("cannot access field '" ++ field ++ "' on type '" ++
        typeName left ++ "'")) s1

/-- `evalSafeAccessExpression` from src/unnamed/part_000: none short-circuits
to none; maps behave like dot access; anything else errors. -/
def evalSafeAccessExpressionF (fns : EFns) (le : Expr) (field : String)
    (env : Nat) (s : St) : Res :=
  match fns.evalExpr le env s with
  | .timeout => .timeout
  | .exn e s' => .exn e s'
  | .ok left s1 =>
    match left with
    | .vnone => .ok .vnone s1
    | .vmap id =>
      match mapLookup ((s1.maps.get? id).getD []) field with
      | some v => .ok v s1
      | none => .ok .vnone s1
    | _ =>
      .exn (.rerr ("cannot safe-access field '" ++ field ++ "' on type '" ++
        typeName left ++ "'")) s1

/-- The key/value pair loop of `evalMapLiteral` (source order key₁ value₁
key₂ value₂ …, string keys enforced). -/
def evalMapPairsF (fns : EFns) : List Expr → List Expr →
    List (String × Value) → Nat → St → MapPairsRes
  | [], _, acc, _, s => .done acc s
  | _ :: _, [], _, _, s => .exnRes (.rerr "panic: map literal length mismatch") s
  | k :: ks, v :: vs, acc, env, s =>
    match fns.evalExpr k env s with
    | .timeout => .timeout
    | .exn e s' => .exnRes e s'
    | .ok kv s1 =>
      match kv with
      | .vstr key =>
        match fns.evalExpr v env s1 with
        | .timeout => .timeout
        | .exn e s' => .exnRes e s'
        | .ok vv s2 => evalMapPairsF fns ks vs (mapInsert acc key vv) env s2
      | _ => .exnRes (.rerr "map key must be a string") s1

/-- `evalRangeExpression` from src/unnamed/part_000: integer bounds, integer
optional step defaulting to 1. -/
def evalRangeExpressionF (fns : EFns) (startE stopE : Expr) (stepE : Option Expr)
    (env : Nat) (s : St) : Res :=
  match fns.evalExpr startE env s with
  | .timeout => .timeout
  | .exn e s' => .exn e s'
  | .ok sv s1 =>
    match fns.evalExpr stopE env s1 with
    | .timeout => .timeout
    | .exn e s' => .exn e s'
    | .ok ev s2 =>
      match sv, ev with
      | .vint a, .vint b =>
        match stepE with
        | none => .ok (.vrange a b 1) s2
        | some se =>
          match fns.evalExpr se env s2 with
          | .timeout => .timeout
          | .exn e s' => .exn e s'
          | .ok stv s3 =>
            match stv with
            | .vint st => .ok (.vrange a b st) s3
            | _ => .exn (.rerr "range step must be an integer") s3
      | _, _ => .exn (.rerr "range bounds must be integers") s2

/-- `evalIndexAssignStatement` from src/unnamed/part_000: target, index and
value evaluated in order; arrays and maps mutated in place. -/
def evalIndexAssignStatementF (fns : EFns) (le ie ve : Expr)
    (env : Nat) (s : St) : Res :=
  match fns.evalExpr le env s with
  | .timeout => .timeout
  | .exn e s' => .exn e s'
  | .ok left s1 =>
    match fns.evalExpr ie env s1 with
    | .timeout => .timeout
    | .exn e s' => .exn e s'
    | .ok index s2 =>
      match fns.evalExpr ve env s2 with
      | .timeout => .timeout
      | .exn e s' => .exn e s'
      | .ok val s3 =>
        match left with
        | .varr id =>
          match index with
          | .vint i =>
            let elems := (s3.arrays.get? id).getD []
            if i < 0 ∨ i ≥ elems.length then
              .exn (.rerr ("index " ++ toString i ++ " out of bounds (len " ++
                toString elems.length ++ ")")) s3
            else
              .ok .vnone
                { s3 with arrays := listSet s3.arrays id (listSet elems i.toNat val) }
          | _ => .exn (.rerr "array index must be an integer") s3
        | .vmap id =>
          match index with
          | .vstr key =>
            let pairs := (s3.maps.get? id).getD []
            .ok .vnone { s3 with maps := listSet s3.maps id (mapInsert pairs key val) }
          | _ => .exn (.rerr "map key must be a string") s3
        | _ => .exn (.rerr ("cannot index into '" ++ typeName left ++ "'")) s3

/-- The full statement dispatch of `Eval` (src/unnamed/part_000). -/
def evalStmtF (fns : EFns) : Stmt → Nat → St → Res
  | .letStmt name value, env, s =>
    match fns.evalExpr value env s with
    | .timeout => .timeout
    | .exn e s' => .exn e s'
    | .ok v s' =>
      match envDefine s' env name v false with
      | .ok s'' => .ok .vnone s''
      | .error m => .exn (.rerr m) s'
  | .mutStmt name value, env, s =>
    match fns.evalExpr value env s with
    | .timeout => .timeout
    | .exn e s' => .exn e s'
    | .ok v s' =>
      match envDefine s' env name v true with
      | .ok s'' => .ok .vnone s''
      | .error m => .exn (.rerr m) s'
  | .assignStmt name value, env, s =>
    match fns.evalExpr value env s with
    | .timeout => .timeout
    | .exn e s' => .exn e s'
    | .ok v s' =>
      match envSet s' env name v with
      | .ok s'' => .ok .vnone s''
      | .error m => .exn (.rerr m) s'
  | .indexAssignStmt l i v, env, s => evalIndexAssignStatementF fns l i v env s
  | .exprStmt e, env, s => fns.evalExpr e env s
  | .blockStmt stmts, env, s => evalBlockStatementF fns stmts env s
  | .returnStmt values, env, s => evalReturnStatementF fns values env s
  | .ifStmt c cons elifs alt, env, s => evalIfStatementF fns c cons elifs alt env s
  | .loopStmt c iter iterable body, env, s =>
    evalLoopStatementF fns c iter iterable body env s
  | .breakStmt, _, s => .exn .brkSig s
  | .continueStmt, _, s => .exn .contSig s
  | .fnDecl name params body, env, s =>
    .ok .vnone (defineIgnore s env name (.vfn name params body env) false)
  | .matchStmt subject arms, env, s => evalMatchStatementF fns subject arms env s
  | .testBlock _ _, _, s => .ok .vnone s

/-- The full expression dispatch of `Eval` (src/unnamed/part_000). -/
def evalExprF (fns : EFns) : Expr → Nat → St → Res
  | .intLit n, _, s => .ok (.vint n) s
  | .floatLit q, _, s => .ok (.vfloat q) s
  | .strLit str, _, s => .ok (.vstr str) s
  | .boolLit b, _, s => .ok (.vbool b) s
  | .noneLit, _, s => .ok .vnone s
  | .ident name, env, s => evalIdentifierF name env s
  | .binary op l r, env, s => evalBinaryExpressionF fns op l r env s
  | .unary op e, env, s => evalUnaryExpressionF fns op e env s
  | .call fn args, env, s =>
    match fns.evalExpr fn env s with
    | .timeout => .timeout
    | .exn e s' => .exn e s'
    | .ok fv s1 =>
      match evalExprListF fns args env s1 with
      | .timeout => .timeout
      | .exn e s' => .exn e s'
      | .oks vs s2 => callFunctionF fns fv vs s2
  | .indexE l i, env, s => evalIndexExpressionF fns l i env s
  | .dot l f, env, s => evalDotExpressionF fns l f env s
  | .safeAccess l f, env, s => evalSafeAccessExpressionF fns l f env s
  | .arrayLit elems, env, s =>
    match evalExprListF fns elems env s with
    | .timeout => .timeout
    | .exn e s' => .exn e s'
    | .oks vs s' =>
      let (a, s'') := allocArray s' vs
      .ok a s''
  | .mapLit keys vals, env, s =>
    match evalMapPairsF fns keys vals [] env s with
    | .timeout => .timeout
    | .exnRes e s' => .exn e s'
    | .done pairs s' =>
      let (m, s'') := allocMap s' pairs
      .ok m s''
  | .fnLit params body, env, s => .ok (.vfn "" params body env) s
  | .rangeE a b st, env, s => evalRangeExpressionF fns a b st env s
  | .pipeline l rfn rargs, env, s =>
    match fns.evalExpr l env s with
    | .timeout => .timeout
    | .exn e s' => .exn e s'
    | .ok lv s1 =>
      match fns.evalExpr rfn env s1 with
      | .timeout => .timeout
      | .exn e s' => .exn e s'
      | .ok fv s2 =>
        match evalExprListF fns rargs env s2 with
        | .timeout => .timeout
        | .exn e s' => .exn e s'
        | .oks vs s3 => callFunctionF fns fv (lv :: vs) s3
  | .coalesce l r, env, s =>
    match fns.evalExpr l env s with
    | .timeout => .timeout
    | .exn e s' => .exn e s'
    | .ok lv s1 =>
      match lv with
      | .vnone => fns.evalExpr r env s1
      | _ => .ok lv s1
  | .wildcard, _, s => .exn (.rerr "unknown node type: wildcard") s
  | .nilE, _, s => .exn (.rerr "unknown node type: <nil>") s

/-- The zero-fuel knot: every evaluation times out. -/
def timeoutE : EFns where
  evalStmt := fun _ _ _ => .timeout
  evalExpr := fun _ _ _ => .timeout
  condLoop := fun _ _ _ _ => .timeout
  rangeLoop := fun _ _ _ _ _ _ _ => .timeout
  callFn := fun _ _ _ => .timeout

/-- Tie the evaluator knot with `fuel` unfoldings: each nested `Eval` call,
loop iteration or comparator invocation descends one level. -/
def mkE : Nat → EFns
  | 0 => timeoutE
  | fuel + 1 =>
    let e := mkE fuel
    { evalStmt := evalStmtF e
      evalExpr := evalExprF e
      condLoop := condLoopF e
      rangeLoop := rangeLoopF e
      callFn := callFunctionF e }

/-- The initial state of `run`: one empty root environment (builtins other
than the modelled ones are irrelevant to the verified properties). -/
def initialSt : St := ⟨[⟨[], none⟩], [], []⟩

/-- Evaluate a whole program in a fresh root environment. -/
def runProgram (fuel : Nat) (prog : List Stmt) : Res :=
  evalProgramF (mkE fuel) prog 0 initialSt

/-! ## Scanner (src/lexer/lexer.go, src/lexer/token.go)

Source text is modelled as a character list (the scanner reads the ASCII
subset, where Go's byte indexing and character indexing agree).  Line and
column counters are Go `int`s, so they are modelled as `Int` — `addToken`'s
`l.column - len(literal)` can go non-positive. -/

inductive TokType where
  | ILLEGAL | EOF | NEWLINE
  | INT | FLOAT | STRING | IDENT
  | PLUS | MINUS | STAR | SLASH | PERCENT | ASSIGN
  | EQ | NEQ | LT | GT | LTE | GTE | AND | OR | NOT
  | PIPE | DOTDOT | ARROW | QMARK | COALESCE
  | LPAREN | RPAREN | LBRACE | RBRACE | LBRACKET | RBRACKET
  | COMMA | DOT | COLON
  | STRING_START | STRING_MID | STRING_END
  | LET | MUT | FN | RETURN | IF | ELIF | ELSE | LOOP | IN
  | BREAK | CONTINUE | MATCH | TRUE | FALSE | NONE | TEST | STEP | IMPORT
deriving DecidableEq

/-- A scanned token (the `File` field of the position is elided; it feeds
only error text). -/
structure LToken where
  tt : TokType
  literal : String
  line : Int
  column : Int
deriving DecidableEq

/-- The keyword table of src/lexer/lexer.go.  (It has no entry for `step`:
the `Keywords` map in token.go lists it, but the scanner consults its own
package-level table, so `step` scans as an identifier.) -/
def keywordTok (s : String) : Option TokType :=
  if s = "let" then some .LET
  else if s = "mut" then some .MUT
  else if s = "fn" then some .FN
  else if s = "return" then some .RETURN
  else if s = "if" then some .IF
  else if s = "elif" then some .ELIF
  else if s = "else" then some .ELSE
  else if s = "loop" then some .LOOP
  else if s = "in" then some .IN
  else if s = "break" then some .BREAK
  else if s = "continue" then some .CONTINUE
  else if s = "match" then some .MATCH
  else if s = "true" then some .TRUE
  else if s = "false" then some .FALSE
  else if s = "none" then some .NONE
  else if s = "test" then some .TEST
  else if s = "import" then some .IMPORT
  else none

def isDigitGo (c : Char) : Bool := decide ('0' ≤ c ∧ c ≤ '9')

def isAlphaGo (c : Char) : Bool :=
  decide (('a' ≤ c ∧ c ≤ 'z') ∨ ('A' ≤ c ∧ c ≤ 'Z')) || c == '_'

def isAlphaNumericGo (c : Char) : Bool := isAlphaGo c || isDigitGo c

/-- Scanner state (fields of the Go `Lexer` struct). -/
structure LexSt where
  source : List Char
  start : Nat
  current : Nat
  line : Int
  column : Int
  tokens : List LToken
deriving DecidableEq

/-- `peek`: the current character, NUL past the end. -/
def lexPeek (st : LexSt) : Char := (st.source.get? st.current).getD (Char.ofNat 0)

/-- `peekNext`. -/
def lexPeekNext (st : LexSt) : Char :=
  (st.source.get? (st.current + 1)).getD (Char.ofNat 0)

def lexIsAtEnd (st : LexSt) : Bool := decide (st.current ≥ st.source.length)

/-- `advance`: consume one character (the column counter moves with it). -/
def lexAdvance (st : LexSt) : LexSt :=
  { st with current := st.current + 1, column := st.column + 1 }

/-- `source[a:b]` as a string. -/
def sliceStr (src : List Char) (a b : Nat) : String :=
  ((src.drop a).take (b - a)).asString

/-- `addToken`: the token's column is `l.column - len(literal)`. -/
def lexAddToken (st : LexSt) (tt : TokType) (lit : String) : LexSt :=
  { st with tokens :=
      st.tokens ++ [⟨tt, lit, st.line, st.column - (lit.length : Int)⟩] }

/-- A character-consuming loop (`for cond { l.advance() }`); the fuel always
exceeds the remaining input at the call sites. -/
def advanceWhile (cond : LexSt → Bool) : Nat → LexSt → LexSt
  | 0, st => st
  | fuel + 1, st =>
    if cond st then advanceWhile cond fuel (lexAdvance st) else st

/-- `scanNumber`: a digit run, optionally a fraction part when a dot is
followed by a digit. -/
def scanNumber (fuel : Nat) (st : LexSt) : LexSt :=
  let st1 := advanceWhile (fun s => isDigitGo (lexPeek s)) fuel st
  if lexPeek st1 = '.' ∧ isDigitGo (lexPeekNext st1) then
    let st2 := advanceWhile (fun s => isDigitGo (lexPeek s)) fuel (lexAdvance st1)
    lexAddToken st2 .FLOAT (sliceStr st2.source st2.start st2.current)
  else
    lexAddToken st1 .INT (sliceStr st1.source st1.start st1.current)

/-- The body walk of `scanString`: on a newline the line counter advances
and the column counter is reset to 0 before the character is consumed. -/
def scanStringLoop : Nat → LexSt → LexSt
  | 0, st => st
  | fuel + 1, st =>
    if ¬ lexIsAtEnd st ∧ lexPeek st ≠ '"' then
      let st1 :=
        if lexPeek st = '\n' then { st with line := st.line + 1, column := 0 }
        else st
      scanStringLoop fuel (lexAdvance st1)
    else st

/-- `scanString`: opening quote, body walk, closing quote; an unterminated
string emits no token at all. -/
def scanString (fuel : Nat) (st : LexSt) : LexSt :=
  let st1 := lexAdvance st
  let st2 := scanStringLoop fuel st1
  if lexIsAtEnd st2 then st2
  else
    let st3 := lexAdvance st2
    lexAddToken st3 .STRING (sliceStr st3.source (st3.start + 1) (st3.current - 1))

/-- `scanIdentifier`: alphanumeric run, then the keyword table. -/
def scanIdentifier (fuel : Nat) (st : LexSt) : LexSt :=
  let st1 := advanceWhile (fun s => isAlphaNumericGo (lexPeek s)) fuel st
  let lit := sliceStr st1.source st1.start st1.current
  lexAddToken st1 ((keywordTok lit).getD .IDENT) lit

/-- The two-character operator table (longest match first, as in the
source's switch on the two-character string). -/
def twoCharTok (a b : Char) : Option (TokType × String) :=
  if a = '=' ∧ b = '=' then some (.EQ, "==")
  else if a = '!' ∧ b = '=' then some (.NEQ, "!=")
  else if a = '<' ∧ b = '=' then some (.LTE, "<=")
  else if a = '>' ∧ b = '=' then some (.GTE, ">=")
  else if a = '&' ∧ b = '&' then some (.AND, "&&")
  else if a = '|' ∧ b = '|' then some (.OR, "||")
  else if a = '|' ∧ b = '>' then some (.PIPE, "|>")
  else if a = '.' ∧ b = '.' then some (.DOTDOT, "..")
  else if a = '=' ∧ b = '>' then some (.ARROW, "=>")
  else if a = '?' ∧ b = '?' then some (.COALESCE, "??")
  else if a = '?' ∧ b = '.' then some (.QMARK, "?.")
  else none

/-- The single-character token switch (an unknown character is consumed and
silently skipped — its `default` case emits nothing). -/
def singleCharTok (c : Char) : Option (TokType × String) :=
  if c = '+' then some (.PLUS, "+")
  else if c = '-' then some (.MINUS, "-")
  else if c = '*' then some (.STAR, "*")
  else if c = '/' then some (.SLASH, "/")
  else if c = '%' then some (.PERCENT, "%")
  else if c = '=' then some (.ASSIGN, "=")
  else if c = '<' then some (.LT, "<")
  else if c = '>' then some (.GT, ">")
  else if c = '!' then some (.NOT, "!")
  else if c = '(' then some (.LPAREN, "(")
  else if c = ')' then some (.RPAREN, ")")
  else if c = Char.ofNat 123 then some (.LBRACE, "\x7b")
  else if c = Char.ofNat 125 then some (.RBRACE, "\x7d")
  else if c = '[' then some (.LBRACKET, "[")
  else if c = ']' then some (.RBRACKET, "]")
  else if c = ',' then some (.COMMA, ",")
  else if c = ':' then some (.COLON, ":")
  else if c = '.' then some (.DOT, ".")
  else if c = '?' then some (.QMARK, "?")
  else none

/-- The main `Tokenize` loop.  Every iteration consumes at least one
character, so a fuel of `|source| + 1` runs it to completion. -/
def tokenizeLoop : Nat → LexSt → LexSt
  | 0, st => st
  | fuel + 1, st =>
    if lexIsAtEnd st then st
    else
      let st := { st with start := st.current }
      let ch := lexPeek st
      if ch = ' ' ∨ ch = '\t' ∨ ch = '\r' then tokenizeLoop fuel (lexAdvance st)
      else if ch = '\n' then
        let st1 := lexAddToken (lexAdvance st) .NEWLINE "\n"
        tokenizeLoop fuel { st1 with line := st1.line + 1, column := 1 }
      else if ch = '/' ∧ lexPeekNext st = '/' then
        let st1 := lexAdvance (lexAdvance st)
        let st2 :=
          advanceWhile (fun s => ¬ lexIsAtEnd s ∧ lexPeek s ≠ '\n') fuel st1
        tokenizeLoop fuel st2
      else if isDigitGo ch then tokenizeLoop fuel (scanNumber fuel st)
      else if ch = '"' then tokenizeLoop fuel (scanString fuel st)
      else if isAlphaGo ch then tokenizeLoop fuel (scanIdentifier fuel st)
      else
        match twoCharTok ch (lexPeekNext st) with
        | some (tt, lit) =>
          tokenizeLoop fuel (lexAddToken (lexAdvance (lexAdvance st)) tt lit)
        | none =>
          let st1 := lexAdvance st
          match singleCharTok ch with
          | some (tt, lit) => tokenizeLoop fuel (lexAddToken st1 tt lit)
          | none => tokenizeLoop fuel st1

/-- `Lexer.Tokenize`: scan the whole source, then append the final `EOF`
token. -/
def TokenizeGo (src : String) : List LToken :=
  let st0 : LexSt := ⟨src.toList, 0, 0, 1, 1, []⟩
  let st1 := tokenizeLoop (src.toList.length + 1) st0
  (lexAddToken st1 .EOF "").tokens

/-! ## Parser (src/parser/parser.go, src/parser/precedence.go)

The parser's recursion (statements inside blocks, nested expressions, the
Pratt infix loop, and every `for` loop of the Go code) is threaded through
the `PFns` knot, tied by `mkP fuel`.  A Go parse function returning `nil`
is `done none`; `timeout` is the fuel artifact — and, crucially, a result
that stays `timeout` at every fuel is a genuine infinite loop of the Go
parser. -/

def PREC_LOWEST : Nat := 0
def PREC_PIPELINE : Nat := 1
def PREC_COALESCE : Nat := 2
def PREC_OR : Nat := 3
def PREC_AND : Nat := 4
def PREC_EQUALITY : Nat := 5
def PREC_COMPARISON : Nat := 6
def PREC_RANGE : Nat := 7
def PREC_ADDITION : Nat := 8
def PREC_MULTIPLY : Nat := 9
def PREC_UNARY : Nat := 10
def PREC_CALL : Nat := 11

/-- Parser state (the `Parser` struct fields). -/
structure PState where
  tokens : List LToken
  current : Nat
  errors : List String
deriving DecidableEq

/-- One parse result: `none` is Go's `nil` node. -/
inductive PRes (α : Type) where
  | timeout
  | done (r : Option α) (st : PState)

/-- `Parser.peek`: past the end Go builds a zero-value token, whose type is
`TOKEN_ILLEGAL` (the zero `TokenType`). -/
def pPeek (st : PState) : LToken :=
  if st.current ≥ st.tokens.length then ⟨.EOF, "", 0, 0⟩
  else (st.tokens.get? st.current).getD ⟨.EOF, "", 0, 0⟩

/-- `Parser.peekNext`. -/
def pPeekNext (st : PState) : LToken :=
  if st.current + 1 ≥ st.tokens.length then ⟨.EOF, "", 0, 0⟩
  else (st.tokens.get? (st.current + 1)).getD ⟨.EOF, "", 0, 0⟩

/-- `Parser.advance`. -/
def pAdvanceT (st : PState) : LToken × PState :=
  (pPeek st, { st with current := st.current + 1 })

def pIsAtEnd (st : PState) : Bool := (pPeek st).tt == .EOF

def pAddError (st : PState) (msg : String) : PState :=
  { st with errors := st.errors ++ [msg] }

/-- Printable token-kind name (Go formats the numeric TokenType with %v;
only the message text differs, which no property inspects). -/
def tokName : TokType → String
  | .ILLEGAL => "ILLEGAL" | .EOF => "EOF" | .NEWLINE => "NEWLINE"
  | .INT => "INT" | .FLOAT => "FLOAT" | .STRING => "STRING" | .IDENT => "IDENT"
  | .PLUS => "+" | .MINUS => "-" | .STAR => "*" | .SLASH => "/"
  | .PERCENT => "%" | .ASSIGN => "=" | .EQ => "==" | .NEQ => "!="
  | .LT => "<" | .GT => ">" | .LTE => "<=" | .GTE => ">="
  | .AND => "&&" | .OR => "||" | .NOT => "!" | .PIPE => "|>"
  | .DOTDOT => ".." | .ARROW => "=>" | .QMARK => "?." | .COALESCE => "??"
  | .LPAREN => "(" | .RPAREN => ")" | .LBRACE => "\x7b" | .RBRACE => "\x7d"
  | .LBRACKET => "[" | .RBRACKET => "]" | .COMMA => "," | .DOT => "."
  | .COLON => ":" | .STRING_START => "STRING_START" | .STRING_MID => "STRING_MID"
  | .STRING_END => "STRING_END" | .LET => "let" | .MUT => "mut" | .FN => "fn"
  | .RETURN => "return" | .IF => "if" | .ELIF => "elif" | .ELSE => "else"
  | .LOOP => "loop" | .IN => "in" | .BREAK => "break" | .CONTINUE => "continue"
  | .MATCH => "match" | .TRUE => "true" | .FALSE => "false" | .NONE => "none"
  | .TEST => "test" | .STEP => "step" | .IMPORT => "import"

/-- `Parser.expect`: consume on match, record a diagnostic otherwise. -/
def pExpect (st : PState) (tt : TokType) : Bool × PState :=
  if (pPeek st).tt = tt then (true, (pAdvanceT st).2)
  else
    (false, pAddError st ("expected " ++ tokName tt ++ ", got " ++
      tokName (pPeek st).tt))

/-- `p.tokens[p.current-1].Literal` (used right after a successful expect). -/
def prevLiteral (st : PState) : String :=
  ((st.tokens.get? (st.current - 1)).getD ⟨.EOF, "", 0, 0⟩).literal

/-- `Parser.skipNewlines`: the newline run ahead is bounded by the token
list, so this loop needs no knot. -/
def pSkipNewlines (st : PState) : PState :=
  { st with current := st.current + countNewlines (st.tokens.drop st.current) }
where
  countNewlines : List LToken → Nat
    | t :: rest => if t.tt = .NEWLINE then countNewlines rest + 1 else 0
    | [] => 0

/-- `getPrecedence` from src/parser/parser.go. -/
def getPrecedenceGo : TokType → Nat
  | .PIPE => PREC_PIPELINE
  | .COALESCE => PREC_COALESCE
  | .OR => PREC_OR
  | .AND => PREC_AND
  | .EQ | .NEQ => PREC_EQUALITY
  | .LT | .GT | .LTE | .GTE => PREC_COMPARISON
  | .DOTDOT => PREC_RANGE
  | .PLUS | .MINUS => PREC_ADDITION
  | .STAR | .SLASH | .PERCENT => PREC_MULTIPLY
  | .LPAREN | .LBRACKET | .DOT | .QMARK => PREC_CALL
  | _ => PREC_LOWEST

/-- Decimal digit-run to Nat (structural, so it reduces in the kernel). -/
def digitsToNat : List Char → Nat → Nat
  | [], acc => acc
  | c :: rest, acc => digitsToNat rest (acc * 10 + (c.toNat - '0'.toNat))

/-- Split a float literal's characters at the first dot. -/
def splitAtDot : List Char → List Char × List Char
  | [] => ([], [])
  | c :: rest =>
    if c = '.' then ([], rest)
    else
      let (a, b) := splitAtDot rest
      (c :: a, b)

/-- `parseIntegerLiteral`'s `fmt.Sscanf(lit, "%d", &value)`: the lexer only
hands it digit runs; a run overflowing int64 leaves the value 0 (Sscanf's
error is ignored in the source). -/
def parseIntVal (lit : String) : Int :=
  let n := digitsToNat lit.toList 0
  if n ≤ 9223372036854775807 then (n : Int) else 0

/-- `parseFloatLiteral`'s `fmt.Sscanf(lit, "%f", &value)` on a
`digits.digits` literal, in the Rat model. -/
def parseFloatVal (lit : String) : Rat :=
  let (ip, fp) := splitAtDot lit.toList
  ((digitsToNat ip 0 : Int) : Rat) +
    ((digitsToNat fp 0 : Int) : Rat) / ((10 : Rat) ^ fp.length)

/-- The parser knot: one field per recursive parse entry or Go `for` loop. -/
structure PFns where
  stmt : PState → PRes Stmt
  expr : Nat → PState → PRes Expr
  exprLoop : Nat → Expr → PState → PRes Expr
  programLoop : List Stmt → PState → PRes (List Stmt)
  blockLoop : List Stmt → PState → PRes (List Stmt)
  paramsLoop : List String → PState → PRes (List String)
  argsLoop : List Expr → PState → PRes (List Expr)
  elemsLoop : List Expr → PState → PRes (List Expr)
  pairsLoop : List Expr → List Expr → PState → PRes (List Expr × List Expr)
  retLoop : List Expr → PState → PRes (List Expr)
  elifLoop : List (Expr × List Stmt) → PState → PRes (List (Expr × List Stmt))
  armsLoop : List (Expr × Option Expr × List Stmt) → PState →
    PRes (List (Expr × Option Expr × List Stmt))

/-- `parseBlock`: `{`, newline-separated statements, `}`. -/
def parseBlockP (fns : PFns) (st : PState) : PRes (List Stmt) :=
  match pExpect st .LBRACE with
  | (false, st') => .done none st'
  | (true, st') =>
    match fns.blockLoop [] (pSkipNewlines st') with
    | .timeout => .timeout
    | .done none st2 => .done none st2
    | .done (some stmts) st2 =>
      let (_, st3) := pExpect st2 .RBRACE
      .done (some stmts) st3

/-- The statement loop inside `parseBlock`. -/
def blockLoopP (fns : PFns) (acc : List Stmt) (st : PState) : PRes (List Stmt) :=
  if ¬ pIsAtEnd st ∧ (pPeek st).tt ≠ .RBRACE then
    match fns.stmt st with
    | .timeout => .timeout
    | .done ostmt st' =>
      fns.blockLoop (acc ++ ostmt.toList) (pSkipNewlines st')
  else .done (some acc) st

/-- `parseLetStatement`. -/
def parseLetStatementP (fns : PFns) (st : PState) : PRes Stmt :=
  let st0 := (pAdvanceT st).2
  match pExpect st0 .IDENT with
  | (false, st1) => .done none st1
  | (true, st1) =>
    let name := prevLiteral st1
    match pExpect st1 .ASSIGN with
    | (false, st2) => .done none st2
    | (true, st2) =>
      match fns.expr PREC_LOWEST st2 with
      | .timeout => .timeout
      | .done none st3 => .done none st3
      | .done (some v) st3 => .done (some (.letStmt name v)) st3

/-- `parseMutStatement`. -/
def parseMutStatementP (fns : PFns) (st : PState) : PRes Stmt :=
  let st0 := (pAdvanceT st).2
  match pExpect st0 .IDENT with
  | (false, st1) => .done none st1
  | (true, st1) =>
    let name := prevLiteral st1
    match pExpect st1 .ASSIGN with
    | (false, st2) => .done none st2
    | (true, st2) =>
      match fns.expr PREC_LOWEST st2 with
      | .timeout => .timeout
      | .done none st3 => .done none st3
      | .done (some v) st3 => .done (some (.mutStmt name v)) st3

/-- The parameter loop shared textually by `parseFnDeclaration` and
`parseFnLiteral`. -/
def paramsLoopP (fns : PFns) (acc : List String) (st : PState) : PRes (List String) :=
  if (pPeek st).tt ≠ .RPAREN ∧ ¬ pIsAtEnd st then
    match pExpect st .IDENT with
    | (false, st') => .done none st'
    | (true, st') =>
      let acc' := acc ++ [prevLiteral st']
      let st'' := if (pPeek st').tt = .COMMA then (pAdvanceT st').2 else st'
      fns.paramsLoop acc' st''
  else .done (some acc) st

/-- `parseFnDeclaration`. -/
def parseFnDeclarationP (fns : PFns) (st : PState) : PRes Stmt :=
  let st0 := (pAdvanceT st).2
  match pExpect st0 .IDENT with
  | (false, st1) => .done none st1
  | (true, st1) =>
    let name := prevLiteral st1
    match pExpect st1 .LPAREN with
    | (false, st2) => .done none st2
    | (true, st2) =>
      match fns.paramsLoop [] st2 with
      | .timeout => .timeout
      | .done none st3 => .done none st3
      | .done (some params) st3 =>
        match pExpect st3 .RPAREN with
        | (false, st4) => .done none st4
        | (true, st4) =>
          match parseBlockP fns st4 with
          | .timeout => .timeout
          | .done none st5 => .done none st5
          | .done (some body) st5 => .done (some (.fnDecl name params body)) st5

/-- The comma loop of `parseReturnStatement` (a nil value is simply not
appended). -/
def retLoopP (fns : PFns) (acc : List Expr) (st : PState) : PRes (List Expr) :=
  if (pPeek st).tt = .COMMA then
    let st1 := (pAdvanceT st).2
    match fns.expr PREC_LOWEST st1 with
    | .timeout => .timeout
    | .done none st2 => fns.retLoop acc st2
    | .done (some v) st2 => fns.retLoop (acc ++ [v]) st2
  else .done (some acc) st

/-- `parseReturnStatement`: no values when a NEWLINE, `}` or EOF follows. -/
def parseReturnStatementP (fns : PFns) (st : PState) : PRes Stmt :=
  let st1 := (pAdvanceT st).2
  if (pPeek st1).tt ≠ .NEWLINE ∧ (pPeek st1).tt ≠ .EOF ∧ (pPeek st1).tt ≠ .RBRACE then
    match fns.expr PREC_LOWEST st1 with
    | .timeout => .timeout
    | .done none st2 => .done (some (.returnStmt [])) st2
    | .done (some v) st2 =>
      match fns.retLoop [v] st2 with
      | .timeout => .timeout
      | .done none st3 => .done none st3
      | .done (some vs) st3 => .done (some (.returnStmt vs)) st3
  else .done (some (.returnStmt [])) st1

/-- The elif chain of `parseIfStatement`. -/
def elifLoopP (fns : PFns) (acc : List (Expr × List Stmt)) (st : PState) :
    PRes (List (Expr × List Stmt)) :=
  if (pPeek st).tt = .ELIF then
    let st1 := (pAdvanceT st).2
    match fns.expr PREC_LOWEST st1 with
    | .timeout => .timeout
    | .done none st2 => .done none st2
    | .done (some c) st2 =>
      match parseBlockP fns st2 with
      | .timeout => .timeout
      | .done none st3 => .done none st3
      | .done (some b) st3 => fns.elifLoop (acc ++ [(c, b)]) st3
  else .done (some acc) st

/-- `parseIfStatement`. -/
def parseIfStatementP (fns : PFns) (st : PState) : PRes Stmt :=
  let st0 := (pAdvanceT st).2
  match fns.expr PREC_LOWEST st0 with
  | .timeout => .timeout
  | .done none st1 => .done none st1
  | .done (some cond) st1 =>
    match parseBlockP fns st1 with
    | .timeout => .timeout
    | .done none st2 => .done none st2
    | .done (some cons) st2 =>
      match fns.elifLoop [] st2 with
      | .timeout => .timeout
      | .done none st3 => .done none st3
      | .done (some elifs) st3 =>
        if (pPeek st3).tt = .ELSE then
          let st4 := (pAdvanceT st3).2
          match parseBlockP fns st4 with
          | .timeout => .timeout
          | .done none st5 => .done none st5
          | .done (some alt) st5 =>
            .done (some (.ifStmt cond cons elifs (some alt))) st5
        else .done (some (.ifStmt cond cons elifs none)) st3

/-- `parseLoopStatement` (loop dispatch per §4.2: `{` → infinite,
`IDENT in` → for-in, otherwise conditional; note the source does not
nil-check the condition). -/
def parseLoopStatementP (fns : PFns) (st : PState) : PRes Stmt :=
  let st0 := (pAdvanceT st).2
  if (pPeek st0).tt = .IDENT ∧ (pPeekNext st0).tt = .IN then
    let (itTok, st1) := pAdvanceT st0
    let st2 := (pAdvanceT st1).2
    match fns.expr PREC_LOWEST st2 with
    | .timeout => .timeout
    | .done none st3 => .done none st3
    | .done (some iterable) st3 =>
      match parseBlockP fns st3 with
      | .timeout => .timeout
      | .done none st4 => .done none st4
      | .done (some body) st4 =>
        .done (some (.loopStmt none itTok.literal (some iterable) body)) st4
  else if (pPeek st0).tt ≠ .LBRACE then
    match fns.expr PREC_LOWEST st0 with
    | .timeout => .timeout
    | .done ocond st1 =>
      match parseBlockP fns st1 with
      | .timeout => .timeout
      | .done none st2 => .done none st2
      | .done (some body) st2 => .done (some (.loopStmt ocond "" none body)) st2
  else
    match parseBlockP fns st0 with
    | .timeout => .timeout
    | .done none st1 => .done none st1
    | .done (some body) st1 => .done (some (.loopStmt none "" none body)) st1

/-- The arm loop of `parseMatchStatement` (single-expression bodies wrapped
into a one-statement block). -/
def armsLoopP (fns : PFns) (acc : List (Expr × Option Expr × List Stmt))
    (st : PState) : PRes (List (Expr × Option Expr × List Stmt)) :=
  if (pPeek st).tt ≠ .RBRACE ∧ ¬ pIsAtEnd st then
    match fns.expr PREC_LOWEST st with
    | .timeout => .timeout
    | .done none st1 => .done none st1
    | .done (some pat) st1 =>
      let guardRes : PRes (Option Expr) :=
        if (pPeek st1).tt = .IF then
          let st2 := (pAdvanceT st1).2
          match fns.expr PREC_LOWEST st2 with
          | .timeout => .timeout
          | .done none st3 => .done none st3
          | .done (some g) st3 => .done (some (some g)) st3
        else .done (some none) st1
      match guardRes with
      | .timeout => .timeout
      | .done none st2 => .done none st2
      | .done (some guard) st2 =>
        match pExpect st2 .ARROW with
        | (false, st3) => .done none st3
        | (true, st3) =>
          match fns.expr PREC_LOWEST st3 with
          | .timeout => .timeout
          | .done none st4 => .done none st4
          | .done (some bodyExpr) st4 =>
            fns.armsLoop (acc ++ [(pat, guard, [Stmt.exprStmt bodyExpr])])
              (pSkipNewlines st4)
  else .done (some acc) st

/-- `parseMatchStatement`. -/
def parseMatchStatementP (fns : PFns) (st : PState) : PRes Stmt :=
  let st0 := (pAdvanceT st).2
  match fns.expr PREC_LOWEST st0 with
  | .timeout => .timeout
  | .done none st1 => .done none st1
  | .done (some subject) st1 =>
    match pExpect st1 .LBRACE with
    | (false, st2) => .done none st2
    | (true, st2) =>
      match fns.armsLoop [] (pSkipNewlines st2) with
      | .timeout => .timeout
      | .done none st3 => .done none st3
      | .done (some arms) st3 =>
        let (_, st4) := pExpect st3 .RBRACE
        .done (some (.matchStmt subject arms)) st4

/-- `parseTestBlock`. -/
def parseTestBlockP (fns : PFns) (st : PState) : PRes Stmt :=
  let st0 := (pAdvanceT st).2
  match pExpect st0 .STRING with
  | (false, st1) => .done none st1
  | (true, st1) =>
    let desc := prevLiteral st1
    match parseBlockP fns st1 with
    | .timeout => .timeout
    | .done none st2 => .done none st2
    | .done (some body) st2 => .done (some (.testBlock desc body)) st2

/-- `parseExpressionStatement`. -/
def parseExpressionStatementP (fns : PFns) (st : PState) : PRes Stmt :=
  match fns.expr PREC_LOWEST st with
  | .timeout => .timeout
  | .done none st1 => .done none st1
  | .done (some e) st1 => .done (some (.exprStmt e)) st1

/-- `parseExpressionOrAssignment`: an expression followed by `=` converts
to an assignment with target `Ident` or `Index` (the source does not
nil-check the assigned value — a failed right-hand side is stored as a Go
`nil` expression, `nilE` here). -/
def parseExpressionOrAssignmentP (fns : PFns) (st : PState) : PRes Stmt :=
  match fns.expr PREC_LOWEST st with
  | .timeout => .timeout
  | .done none st1 => .done none st1
  | .done (some e) st1 =>
    if (pPeek st1).tt = .ASSIGN then
      let st2 := (pAdvanceT st1).2
      match fns.expr PREC_LOWEST st2 with
      | .timeout => .timeout
      | .done ov st3 =>
        let v := ov.getD .nilE
        match e with
        | .ident name => .done (some (.assignStmt name v)) st3
        | .indexE l i => .done (some (.indexAssignStmt l i v)) st3
        | _ => .done none (pAddError st3 "invalid assignment target")
    else .done (some (.exprStmt e)) st1

/-- The statement dispatch of `parseStatement`. -/
def parseStatementP (fns : PFns) (st : PState) : PRes Stmt :=
  match (pPeek st).tt with
  | .LET => parseLetStatementP fns st
  | .MUT => parseMutStatementP fns st
  | .FN =>
    if (pPeekNext st).tt = .IDENT then parseFnDeclarationP fns st
    else parseExpressionStatementP fns st
  | .RETURN => parseReturnStatementP fns st
  | .IF => parseIfStatementP fns st
  | .LOOP => parseLoopStatementP fns st
  | .BREAK => .done (some .breakStmt) (pAdvanceT st).2
  | .CONTINUE => .done (some .continueStmt) (pAdvanceT st).2
  | .MATCH => parseMatchStatementP fns st
  | .TEST => parseTestBlockP fns st
  | _ => parseExpressionOrAssignmentP fns st

/-- `parseGrouping` (note: the closing paren is expected even when the
inner expression failed, and a nil inner expression is returned as-is). -/
def parseGroupingP (fns : PFns) (st : PState) : PRes Expr :=
  let st0 := (pAdvanceT st).2
  match fns.expr PREC_LOWEST st0 with
  | .timeout => .timeout
  | .done oe st1 =>
    let (_, st2) := pExpect st1 .RPAREN
    .done oe st2

/-- The element loop of `parseArrayLiteral` (nil elements skipped). -/
def elemsLoopP (fns : PFns) (acc : List Expr) (st : PState) : PRes (List Expr) :=
  if (pPeek st).tt ≠ .RBRACKET ∧ ¬ pIsAtEnd st then
    match fns.expr PREC_LOWEST st with
    | .timeout => .timeout
    | .done oe st1 =>
      let acc' := acc ++ oe.toList
      let st2 := if (pPeek st1).tt = .COMMA then (pAdvanceT st1).2 else st1
      fns.elemsLoop acc' st2
  else .done (some acc) st

/-- `parseArrayLiteral`. -/
def parseArrayLiteralP (fns : PFns) (st : PState) : PRes Expr :=
  let st0 := (pAdvanceT st).2
  match fns.elemsLoop [] st0 with
  | .timeout => .timeout
  | .done none st1 => .done none st1
  | .done (some elems) st1 =>
    let (_, st2) := pExpect st1 .RBRACKET
    .done (some (.arrayLit elems)) st2

/-- The key/value loop of `parseMapLiteral`. -/
def pairsLoopP (fns : PFns) (keys vals : List Expr) (st : PState) :
    PRes (List Expr × List Expr) :=
  if (pPeek st).tt ≠ .RBRACE ∧ ¬ pIsAtEnd st then
    match fns.expr PREC_LOWEST st with
    | .timeout => .timeout
    | .done none st1 => .done none st1
    | .done (some k) st1 =>
      match pExpect st1 .COLON with
      | (false, st2) => .done none st2
      | (true, st2) =>
        match fns.expr PREC_LOWEST st2 with
        | .timeout => .timeout
        | .done none st3 => .done none st3
        | .done (some v) st3 =>
          let st4 := if (pPeek st3).tt = .COMMA then (pAdvanceT st3).2 else st3
          fns.pairsLoop (keys ++ [k]) (vals ++ [v]) st4
  else .done (some (keys, vals)) st

/-- `parseMapLiteral`. -/
def parseMapLiteralP (fns : PFns) (st : PState) : PRes Expr :=
  let st0 := (pAdvanceT st).2
  match fns.pairsLoop [] [] st0 with
  | .timeout => .timeout
  | .done none st1 => .done none st1
  | .done (some (keys, vals)) st1 =>
    let (_, st2) := pExpect st1 .RBRACE
    .done (some (.mapLit keys vals)) st2

/-- `parseFnLiteral` (the `(` expectation's result is ignored in the
source). -/
def parseFnLiteralP (fns : PFns) (st : PState) : PRes Expr :=
  let st0 := (pAdvanceT st).2
  let (_, st1) := pExpect st0 .LPAREN
  match fns.paramsLoop [] st1 with
  | .timeout => .timeout
  | .done none st2 => .done none st2
  | .done (some params) st2 =>
    let (_, st3) := pExpect st2 .RPAREN
    match parseBlockP fns st3 with
    | .timeout => .timeout
    | .done none st4 => .done none st4
    | .done (some body) st4 => .done (some (.fnLit params body)) st4

/-- `parseUnaryExpression`. -/
def parseUnaryExpressionP (fns : PFns) (st : PState) : PRes Expr :=
  let (tok, st0) := pAdvanceT st
  match fns.expr PREC_UNARY st0 with
  | .timeout => .timeout
  | .done none st1 => .done none st1
  | .done (some operand) st1 => .done (some (.unary tok.literal operand)) st1

/-- `getPrefixParser`: `none` is Go's nil prefix parser. -/
def getPrefixParserP (fns : PFns) : TokType → Option (PState → PRes Expr)
  | .INT => some (fun st =>
      let (tok, st1) := pAdvanceT st
      .done (some (.intLit (parseIntVal tok.literal))) st1)
  | .FLOAT => some (fun st =>
      let (tok, st1) := pAdvanceT st
      .done (some (.floatLit (parseFloatVal tok.literal))) st1)
  | .STRING => some (fun st =>
      let (tok, st1) := pAdvanceT st
      .done (some (.strLit tok.literal)) st1)
  | .TRUE => some (fun st =>
      let (tok, st1) := pAdvanceT st
      .done (some (.boolLit (tok.tt == .TRUE))) st1)
  | .FALSE => some (fun st =>
      let (tok, st1) := pAdvanceT st
      .done (some (.boolLit (tok.tt == .TRUE))) st1)
  | .NONE => some (fun st => .done (some .noneLit) (pAdvanceT st).2)
  | .IDENT => some (fun st =>
      let (tok, st1) := pAdvanceT st
      .done (some (.ident tok.literal)) st1)
  | .LPAREN => some (parseGroupingP fns)
  | .LBRACKET => some (parseArrayLiteralP fns)
  | .LBRACE => some (parseMapLiteralP fns)
  | .FN => some (parseFnLiteralP fns)
  | .NOT => some (parseUnaryExpressionP fns)
  | .MINUS => some (parseUnaryExpressionP fns)
  | _ => none

/-- The argument loop of `parseCallExpression` (nil arguments skipped). -/
def argsLoopP (fns : PFns) (acc : List Expr) (st : PState) : PRes (List Expr) :=
  if (pPeek st).tt ≠ .RPAREN ∧ ¬ pIsAtEnd st then
    match fns.expr PREC_LOWEST st with
    | .timeout => .timeout
    | .done oe st1 =>
      let acc' := acc ++ oe.toList
      let st2 := if (pPeek st1).tt = .COMMA then (pAdvanceT st1).2 else st1
      fns.argsLoop acc' st2
  else .done (some acc) st

/-- `parseCallExpression`. -/
def parseCallExpressionP (fns : PFns) (left : Expr) (st : PState) : PRes Expr :=
  let st0 := (pAdvanceT st).2
  match fns.argsLoop [] st0 with
  | .timeout => .timeout
  | .done none st1 => .done none st1
  | .done (some args) st1 =>
    let (_, st2) := pExpect st1 .RPAREN
    .done (some (.call left args)) st2

/-- `parseIndexExpression` (the `]` expectation's result is ignored). -/
def parseIndexExpressionP (fns : PFns) (left : Expr) (st : PState) : PRes Expr :=
  let st0 := (pAdvanceT st).2
  match fns.expr PREC_LOWEST st0 with
  | .timeout => .timeout
  | .done none st1 => .done none st1
  | .done (some index) st1 =>
    let (_, st2) := pExpect st1 .RBRACKET
    .done (some (.indexE left index)) st2

/-- `parseDotExpression`. -/
def parseDotExpressionP (_fns : PFns) (left : Expr) (st : PState) : PRes Expr :=
  let st0 := (pAdvanceT st).2
  match pExpect st0 .IDENT with
  | (false, st1) => .done none st1
  | (true, st1) => .done (some (.dot left (prevLiteral st1))) st1

/-- `parseSafeAccessExpression`: after consuming the QMARK token the source
expects a separate DOT token, then an identifier. -/
def parseSafeAccessExpressionP (_fns : PFns) (left : Expr) (st : PState) :
    PRes Expr :=
  let st0 := (pAdvanceT st).2
  match pExpect st0 .DOT with
  | (false, st1) => .done none st1
  | (true, st1) =>
    match pExpect st1 .IDENT with
    | (false, st2) => .done none st2
    | (true, st2) => .done (some (.safeAccess left (prevLiteral st2))) st2

/-- `parsePipelineExpression`: the right side must have parsed to a call
node, else a diagnostic is recorded and the expression dropped. -/
def parsePipelineExpressionP (fns : PFns) (left : Expr) (st : PState) : PRes Expr :=
  let st0 := (pAdvanceT st).2
  match fns.expr PREC_PIPELINE st0 with
  | .timeout => .timeout
  | .done none st1 => .done none st1
  | .done (some right) st1 =>
    match right with
    | .call f args => .done (some (.pipeline left f args)) st1
    | _ =>
      .done none (pAddError st1 "pipeline right-hand side must be a function call")

/-- `parseRangeExpression` (`start .. end`, optional `: step`). -/
def parseRangeExpressionP (fns : PFns) (left : Expr) (st : PState) : PRes Expr :=
  let st0 := (pAdvanceT st).2
  match fns.expr PREC_RANGE st0 with
  | .timeout => .timeout
  | .done none st1 => .done none st1
  | .done (some stop) st1 =>
    if (pPeek st1).tt = .COLON then
      let st2 := (pAdvanceT st1).2
      match fns.expr PREC_RANGE st2 with
      | .timeout => .timeout
      | .done none st3 => .done none st3
      | .done (some step) st3 =>
        .done (some (.rangeE left stop (some step))) st3
    else .done (some (.rangeE left stop none)) st1

/-- `parseCoalesceExpression`. -/
def parseCoalesceExpressionP (fns : PFns) (left : Expr) (st : PState) : PRes Expr :=
  let st0 := (pAdvanceT st).2
  match fns.expr PREC_COALESCE st0 with
  | .timeout => .timeout
  | .done none st1 => .done none st1
  | .done (some right) st1 => .done (some (.coalesce left right)) st1

/-- `parseBinaryExpression`: operator text from the token literal, right
operand at the operator's own precedence (left associativity). -/
def parseBinaryExpressionP (fns : PFns) (left : Expr) (st : PState) : PRes Expr :=
  let (tok, st0) := pAdvanceT st
  match fns.expr (getPrecedenceGo tok.tt) st0 with
  | .timeout => .timeout
  | .done none st1 => .done none st1
  | .done (some right) st1 => .done (some (.binary tok.literal left right)) st1

/-- `getInfixParser`. -/
def getInfixParserP (fns : PFns) : TokType → Option (Expr → PState → PRes Expr)
  | .PLUS | .MINUS | .STAR | .SLASH | .PERCENT
  | .LT | .GT | .LTE | .GTE | .EQ | .NEQ | .AND | .OR =>
    some (parseBinaryExpressionP fns)
  | .LPAREN => some (parseCallExpressionP fns)
  | .LBRACKET => some (parseIndexExpressionP fns)
  | .DOT => some (parseDotExpressionP fns)
  | .QMARK => some (parseSafeAccessExpressionP fns)
  | .PIPE => some (parsePipelineExpressionP fns)
  | .DOTDOT => some (parseRangeExpressionP fns)
  | .COALESCE => some (parseCoalesceExpressionP fns)
  | _ => none

/-- `parseExpression`: prefix parser, then the Pratt infix loop. -/
def parseExpressionP (fns : PFns) (prec : Nat) (st : PState) : PRes Expr :=
  match getPrefixParserP fns (pPeek st).tt with
  | none =>
    .done none (pAddError st ("no prefix parser for " ++ tokName (pPeek st).tt))
  | some pf =>
    match pf st with
    | .timeout => .timeout
    | .done none st1 => .done none st1
    | .done (some left) st1 => fns.exprLoop prec left st1

/-- The Pratt loop of `parseExpression`. -/
def exprLoopP (fns : PFns) (prec : Nat) (left : Expr) (st : PState) : PRes Expr :=
  if prec < getPrecedenceGo (pPeek st).tt then
    match getInfixParserP fns (pPeek st).tt with
    | none => .done (some left) st
    | some infixFn =>
      match infixFn left st with
      | .timeout => .timeout
      | .done none st1 => .done none st1
      | .done (some left') st1 => fns.exprLoop prec left' st1
  else .done (some left) st

/-- The statement loop of `parseProgram` (nil statements are simply not
appended — the source never invokes `synchronize`). -/
def programLoopP (fns : PFns) (acc : List Stmt) (st : PState) : PRes (List Stmt) :=
  if pIsAtEnd st then .done (some acc) st
  else
    let st1 := pSkipNewlines st
    if pIsAtEnd st1 then .done (some acc) st1
    else
      match fns.stmt st1 with
      | .timeout => .timeout
      | .done ostmt st2 => fns.programLoop (acc ++ ostmt.toList) st2

/-- The zero-fuel parser knot. -/
def timeoutP : PFns where
  stmt := fun _ => .timeout
  expr := fun _ _ => .timeout
  exprLoop := fun _ _ _ => .timeout
  programLoop := fun _ _ => .timeout
  blockLoop := fun _ _ => .timeout
  paramsLoop := fun _ _ => .timeout
  argsLoop := fun _ _ => .timeout
  elemsLoop := fun _ _ => .timeout
  pairsLoop := fun _ _ _ => .timeout
  retLoop := fun _ _ => .timeout
  elifLoop := fun _ _ => .timeout
  armsLoop := fun _ _ => .timeout

/-- Tie the parser knot with `fuel` unfoldings. -/
def mkP : Nat → PFns
  | 0 => timeoutP
  | fuel + 1 =>
    let p := mkP fuel
    { stmt := parseStatementP p
      expr := parseExpressionP p
      exprLoop := exprLoopP p
      programLoop := programLoopP p
      blockLoop := blockLoopP p
      paramsLoop := paramsLoopP p
      argsLoop := argsLoopP p
      elemsLoop := elemsLoopP p
      pairsLoop := pairsLoopP p
      retLoop := retLoopP p
      elifLoop := elifLoopP p
      armsLoop := armsLoopP p }

/-- `Parse`: run the program loop on a fresh parser state. -/
def ParseGo (fuel : Nat) (tokens : List LToken) : PRes (List Stmt) :=
  (mkP fuel).programLoop [] ⟨tokens, 0, []⟩

/-! ## Concrete programs and spec-side helpers used by the verified
properties -/

/-- `if 1 \x7b let x = 5 \x7d` followed by `x` (block-scoping probe). -/
def progIfLet : List Stmt :=
  [ .ifStmt (.intLit 1) [.letStmt "x" (.intLit 5)] [] none,
    .exprStmt (.ident "x") ]

/-- `mut n = 0`, `loop i in 5..0:-1 \x7b n = n + 1 \x7d`, `n`
(negative-step for-in probe: the body counts its own executions). -/
def progNegStep : List Stmt :=
  [ .mutStmt "n" (.intLit 0),
    .loopStmt none "i"
      (some (.rangeE (.intLit 5) (.intLit 0) (some (.intLit (-1)))))
      [.assignStmt "n" (.binary "+" (.ident "n") (.intLit 1))],
    .exprStmt (.ident "n") ]

/-- The source text of end-to-end scenario 5 of the spec:
`let m = \x7b"a": 1\x7d` then `m?.b`. -/
def srcSafeAccess : String := "let m = \x7b\"a\": 1\x7d\nm?.b"

/-- A function body `return 1, 2` (multi-value return probe). -/
def retTwoBody : List Stmt := [.returnStmt [.intLit 1, .intLit 2]]

/-- A root scope binding `x` to 5 and `f` to a three-parameter closure
(pipeline/call equivalence probe). -/
def c5St : St :=
  ⟨[⟨[("x", .vint 5, false),
      ("f", .vfn "g" ["p", "q", "r"] [.returnStmt [.ident "p"]] 0, false)],
     none⟩], [], []⟩

/-- The boolean a comparison operator denotes on ints (spec side of the
comparison table). -/
def intCmpSpec (op : String) (l r : Int) : Bool :=
  if op = "<" then decide (l < r)
  else if op = ">" then decide (l > r)
  else if op = "<=" then decide (l ≤ r)
  else decide (l ≥ r)

/-- The boolean a comparison operator denotes on floats (Rat model). -/
def ratCmpSpec (op : String) (l r : Rat) : Bool :=
  if op = "<" then decide (l < r)
  else if op = ">" then decide (l > r)
  else if op = "<=" then decide (l ≤ r)
  else decide (l ≥ r)

/-- One evaluation step leaves the arrays-store entry `id` unchanged and
never shrinks the store (the store is allocation-only). -/
def stepsArr (id : Nat) (s s' : St) : Prop :=
  s'.arrays.get? id = s.arrays.get? id ∧ s.arrays.length ≤ s'.arrays.length

def ResPreserves (id : Nat) (s : St) : Res → Prop
  | .timeout => True
  | .ok _ s' => stepsArr id s s'
  | .exn _ s' => stepsArr id s s'

/-- The comparator proviso of the sort frame property: every comparator
invocation leaves the argument array's store entry unchanged (and, as every
evaluator step does, only ever grows the arrays store). -/
def PreservesArr (fns : EFns) (cmp : Value) (id : Nat) : Prop :=
  ∀ a b s, ResPreserves id s (fns.callFn cmp [a, b] s)

def SLPreserves (id : Nat) (s : St) : SortLessRes → Prop
  | .timeout => True
  | .done _ s' _ => stepsArr id s s'

def SRPreserves (id : Nat) (s : St) : SortRes → Prop
  | .timeout => True
  | .done _ s' _ => stepsArr id s s'

/-! ## Verified properties -/

/-- C1.  The claim says a block statement creates a child scope, so a `let`
inside an `if` body is invisible afterwards.  The code creates no such
scope: evaluating `if 1 \x7b let x = 5 \x7d` and then `x` yields the
integer 5, and the final root scope holds the binding `x` itself —
`evalBlockStatement` and `evalIfStatement` evaluate their statements
directly in the enclosing environment.  (The block-result half of the
claim — last statement's value, `none` when empty — does hold, as the
final value here shows.) -/
theorem c1_block_let_escapes :
    runProgram 10 progIfLet =
      .ok (.vint 5) ⟨[⟨[("x", .vint 5, false)], none⟩], [], []⟩ := by
  rfl

/-- C3.  The claim says a for-in loop over a range with negative step runs
once per element of the finite descending sequence.  The code's range loop
guard is `i < End` regardless of the step's sign, so over the range
`5..0 step -1` — which the code's own `RangeValue.Len` sizes at 5
elements — the body runs zero times: the counting program returns 0. -/
theorem c3_negative_step_loop_runs_zero_times :
    runProgram 20 progNegStep =
        .ok (.vint 0) ⟨[⟨[("n", .vint 0, true)], none⟩], [], []⟩ ∧
      rangeLen 5 0 (-1) = 5 := by
  exact ⟨rfl, rfl⟩

/-- C8.  The claim says every non-EOF token carries a position with
line ≥ 1 and column ≥ 1.  Scanning the five-character source `"a␊b"`
(a string literal containing a newline) produces a STRING token whose
column is 0: `addToken` computes `l.column - len(literal)` although the
literal spans a line break.  The final token is still EOF. -/
theorem c8_multiline_string_column_zero :
    TokenizeGo "\"a\nb\"" =
        [⟨.STRING, "a\nb", 2, 0⟩, ⟨.EOF, "", 2, 3⟩] ∧
      ∃ t, t ∈ TokenizeGo "\"a\nb\"" ∧ t.tt ≠ .EOF ∧ t.column < 1 := by
  refine ⟨rfl, ⟨.STRING, "a\nb", 2, 0⟩, ?_, by decide, by decide⟩
  rw [show TokenizeGo "\"a\nb\"" =
    [⟨.STRING, "a\nb", 2, 0⟩, ⟨.EOF, "", 2, 3⟩] from rfl]
  exact List.mem_cons_self _ _

/-- On the token sequence of the source `+`, `parseExpression` finds no
prefix parser for the PLUS token, records a diagnostic, and returns nil
without consuming anything — at any parser state position 0. -/
theorem plusHasNoPrefixParser (fns : PFns) (prec : Nat) (errs : List String) :
    parseExpressionP fns prec ⟨TokenizeGo "+", 0, errs⟩ =
      .done none ⟨TokenizeGo "+", 0, errs ++ ["no prefix parser for +"]⟩ := rfl

/-- At every fuel, the knot's expression parser on the `+` tokens either
times out or fails without consuming a token. -/
theorem plusExprStuck (g : Nat) (errs : List String) :
    (mkP g).expr PREC_LOWEST ⟨TokenizeGo "+", 0, errs⟩ = .timeout ∨
      (mkP g).expr PREC_LOWEST ⟨TokenizeGo "+", 0, errs⟩ =
        .done none ⟨TokenizeGo "+", 0, errs ++ ["no prefix parser for +"]⟩ := by
  cases g with
  | zero => exact Or.inl rfl
  | succ g => exact Or.inr (plusHasNoPrefixParser (mkP g) PREC_LOWEST errs)

/-- At every fuel, the knot's statement parser on the `+` tokens either
times out or produces no statement while leaving the position at 0. -/
theorem plusStmtStuck (g : Nat) (errs : List String) :
    (mkP g).stmt ⟨TokenizeGo "+", 0, errs⟩ = .timeout ∨
      ∃ e, (mkP g).stmt ⟨TokenizeGo "+", 0, errs⟩ =
        .done none ⟨TokenizeGo "+", 0, errs ++ [e]⟩ := by
  cases g with
  | zero => exact Or.inl rfl
  | succ g =>
    have e1 : (mkP (g + 1)).stmt ⟨TokenizeGo "+", 0, errs⟩ =
        parseExpressionOrAssignmentP (mkP g) ⟨TokenizeGo "+", 0, errs⟩ := rfl
    rcases plusExprStuck g errs with h | h
    · left
      rw [e1, parseExpressionOrAssignmentP, h]
    · right
      refine ⟨"no prefix parser for +", ?_⟩
      rw [e1, parseExpressionOrAssignmentP, h]

/-- C2.  The claim says the parser terminates on every finite token
sequence because error recovery always advances.  In the code,
`synchronize` is never invoked: on the two-token sequence produced by the
source `+` (PLUS, EOF), `parseProgram`'s loop calls `parseStatement`,
which fails via `parseExpression` without consuming a token, and loops
again from the same position — the parse times out at *every* fuel, i.e.
the Go parser never terminates on this input. -/
theorem c2_parser_diverges_on_plus :
    ∀ (fuel : Nat) (acc : List Stmt) (errs : List String),
      (mkP fuel).programLoop acc ⟨TokenizeGo "+", 0, errs⟩ = .timeout := by
  intro fuel
  induction fuel with
  | zero => intro acc errs; rfl
  | succ f ih =>
    intro acc errs
    have e1 : (mkP (f + 1)).programLoop acc ⟨TokenizeGo "+", 0, errs⟩ =
        (match (mkP f).stmt ⟨TokenizeGo "+", 0, errs⟩ with
          | .timeout => .timeout
          | .done ostmt st2 => (mkP f).programLoop (acc ++ ostmt.toList) st2) := rfl
    rw [e1]
    rcases plusStmtStuck f errs with h | ⟨e, h⟩
    · rw [h]
    · rw [h]
      simpa using ih acc (errs ++ [e])

/-- C9.  `&&`/`||` return an operand value itself: when the left operand is
falsy, `a && b` is the value of `a` (whatever expression `b` is — it is
never evaluated, as the right-hand side's absence from the result shows);
when truthy, it is the evaluation of `b`; dually for `||`. -/
theorem c9_short_circuit_returns_operand (fns : EFns) (a b : Expr)
    (env : Nat) (s : St) (va : Value) (s' : St)
    (ha : fns.evalExpr a env s = .ok va s') :
    (IsTruthy s' va = false →
        evalBinaryExpressionF fns "&&" a b env s = .ok va s') ∧
    (IsTruthy s' va = true →
        evalBinaryExpressionF fns "&&" a b env s = fns.evalExpr b env s') ∧
    (IsTruthy s' va = true →
        evalBinaryExpressionF fns "||" a b env s = .ok va s') ∧
    (IsTruthy s' va = false →
        evalBinaryExpressionF fns "||" a b env s = fns.evalExpr b env s') := by
  refine ⟨?_, ?_, ?_, ?_⟩ <;> intro ht <;> simp [evalBinaryExpressionF, ha, ht]

/-- Witness for C9: `0 && x` is the integer 0 — even though `x` is not even
defined, because the right operand is never evaluated. -/
theorem c9_short_circuit_witness :
    evalBinaryExpressionF (mkE 1) "&&" (.intLit 0) (.ident "x") 0 initialSt =
      .ok (.vint 0) initialSt :=
  (c9_short_circuit_returns_operand (mkE 1) (.intLit 0) (.ident "x") 0
    initialSt (.vint 0) initialSt rfl).1 rfl

/-- One unrolling of argument-list evaluation when the head expression
evaluates purely to a value. -/
theorem evalExprList_cons_pure (fns : EFns) (xe : Expr) (rest : List Expr)
    (env : Nat) (s : St) (vx : Value)
    (hx : fns.evalExpr xe env s = .ok vx s) :
    evalExprListF fns (xe :: rest) env s =
      (match evalExprListF fns rest env s with
        | .timeout => .timeout
        | .exn e s2 => .exn e s2
        | .oks vs s2 => .oks (vx :: vs) s2) := by
  rw [evalExprListF, hx]

/-- C5.  Pipeline/call equivalence: when the piped operand evaluates to a
value without touching the state and the callee expression resolves to a
user function likewise, `x |> f(a, b)` and `f(x, a, b)` evaluate
identically — same value, same error, same final state — with the piped
value prepended as the first argument. -/
theorem c5_pipeline_equals_call (fns : EFns) (xe fe a b : Expr)
    (env : Nat) (s : St) (vx : Value) (nm : String) (params : List String)
    (body : List Stmt) (fenvId : Nat)
    (hx : fns.evalExpr xe env s = .ok vx s)
    (hf : fns.evalExpr fe env s = .ok (.vfn nm params body fenvId) s) :
    evalExprF fns (.pipeline xe fe [a, b]) env s =
      evalExprF fns (.call fe [xe, a, b]) env s := by
  simp only [evalExprF, hx, hf, evalExprList_cons_pure fns xe [a, b] env s vx hx]
  cases evalExprListF fns [a, b] env s <;> rfl

/-- Witness for C5 at a concrete closure and arguments. -/
theorem c5_pipeline_witness :
    evalExprF (mkE 8) (.pipeline (.ident "x") (.ident "f") [.intLit 1, .intLit 2])
        0 c5St =
      evalExprF (mkE 8) (.call (.ident "f") [.ident "x", .intLit 1, .intLit 2])
        0 c5St :=
  c5_pipeline_equals_call (mkE 8) (.ident "x") (.ident "f") (.intLit 1)
    (.intLit 2) 0 c5St (.vint 5) "g" ["p", "q", "r"]
    [.returnStmt [.ident "p"]] 0 rfl rfl

/-- C4.  `callFunction` intercepts a return signal raised by the body:
zero values give `none`, one value is returned unwrapped, and more values
are packed, in order, into a freshly allocated array. -/
theorem c4_return_interception (fns : EFns) (nm : String)
    (params : List String) (body : List Stmt) (envId : Nat)
    (args : List Value) (s : St) (vs : List Value) (s' : St)
    (hlen : args.length = params.length)
    (hbody : fns.evalStmt (.blockStmt body) s.envs.length
        (bindParams { s with envs := s.envs ++ [⟨[], some envId⟩] }
          s.envs.length params args) = .exn (.retSig vs) s') :
    callFunctionF fns (.vfn nm params body envId) args s =
      match vs with
      | [] => .ok .vnone s'
      | [v] => .ok v s'
      | _ => .ok (.varr s'.arrays.length) { s' with arrays := s'.arrays ++ [vs] } := by
  have hne : ¬ (args.length ≠ params.length) := by simp [hlen]
  cases vs with
  | nil => simp only [callFunctionF, if_neg hne]; rw [hbody]
  | cons v rest =>
    cases rest with
    | nil => simp only [callFunctionF, if_neg hne]; rw [hbody]
    | cons w rest2 => simp only [callFunctionF, if_neg hne]; rw [hbody]; rfl

/-- Witness for C4: a nullary closure whose body is `return 1, 2` yields a
fresh array holding 1 and 2. -/
theorem c4_return_witness :
    callFunctionF (mkE 3) (.vfn "f" [] retTwoBody 0) [] initialSt =
      .ok (.varr 0) ⟨[⟨[], none⟩, ⟨[], some 0⟩], [[.vint 1, .vint 2]], []⟩ :=
  c4_return_interception (mkE 3) "f" [] retTwoBody 0 [] initialSt
    [.vint 1, .vint 2] ⟨[⟨[], none⟩, ⟨[], some 0⟩], [], []⟩ rfl rfl

/-- C6.  Scenario 5 of the spec requires `m?.b` to parse as a safe-access
expression (and evaluate to `none`).  It cannot: the scanner emits the
fused two-character token `?.` as a single QMARK token, while
`parseSafeAccessExpression` consumes the QMARK and then *expects a
separate DOT token* — so parsing `let m = \x7b"a": 1\x7d` followed by
`m?.b` yields the diagnostic `expected ., got IDENT`, drops the
safe-access expression, and resumes at `b`, leaving a bare identifier
statement.  (The `m.b`/`m.a + 1` halves of the scenario do hold; the
safe-access conjunct is what fails.) -/
theorem c6_safe_access_never_parses :
    ∃ st : PState,
      ParseGo 30 (TokenizeGo srcSafeAccess) =
          .done (some [ .letStmt "m" (.mapLit [.strLit "a"] [.intLit 1]),
                        .exprStmt (.ident "b") ]) st ∧
        st.errors = ["expected ., got IDENT"] :=
  ⟨⟨TokenizeGo srcSafeAccess, 12, ["expected ., got IDENT"]⟩, rfl, rfl⟩

/-- C7 counterexample.  The claim says `<` on two strings compares
lexicographically; in the code only `+` is defined on string pairs, and
the comparison falls through to the unsupported-operator error. -/
theorem c7_string_comparison_unsupported :
    evalBinaryExpressionF (mkE 1) "<" (.strLit "a") (.strLit "b") 0 initialSt =
      .exn (.rerr "unsupported operator '<' for types 'string' and 'string'")
        initialSt := rfl

/-- C7 amended.  Comparison operators on int/int, float/float and mixed
int-float operands produce the boolean of the numeric comparison (ints
promoted to floats on the mixed paths); on string/string operands they
raise the unsupported-operator runtime error instead of comparing
lexicographically. -/
theorem c7_comparison_amended (op : String)
    (hop : op ∈ ["<", ">", "<=", ">="]) (f : Nat) (n m : Int) (q r : Rat)
    (env : Nat) (s : St) :
    (evalBinaryExpressionF (mkE (f + 1)) op (.intLit n) (.intLit m) env s =
        .ok (.vbool (intCmpSpec op n m)) s) ∧
    (evalBinaryExpressionF (mkE (f + 1)) op (.floatLit q) (.floatLit r) env s =
        .ok (.vbool (ratCmpSpec op q r)) s) ∧
    (evalBinaryExpressionF (mkE (f + 1)) op (.intLit n) (.floatLit r) env s =
        .ok (.vbool (ratCmpSpec op (n : Rat) r)) s) ∧
    (evalBinaryExpressionF (mkE (f + 1)) op (.floatLit q) (.intLit m) env s =
        .ok (.vbool (ratCmpSpec op q (m : Rat))) s) ∧
    (∀ a b : String,
      evalBinaryExpressionF (mkE (f + 1)) op (.strLit a) (.strLit b) env s =
        .exn (.rerr ("unsupported operator '" ++ op ++
          "' for types 'string' and 'string'")) s) := by
  simp only [List.mem_cons, List.mem_singleton, List.not_mem_nil, or_false] at hop
  rcases hop with rfl | rfl | rfl | rfl <;>
    exact ⟨rfl, rfl, rfl, rfl, fun a b => rfl⟩

/-- Witness for C7 amended, at `<` with 1 and 2. -/
theorem c7_comparison_witness :
    (evalBinaryExpressionF (mkE 1) "<" (.intLit 1) (.intLit 2) 0 initialSt =
        .ok (.vbool (intCmpSpec "<" 1 2)) initialSt) ∧
    (evalBinaryExpressionF (mkE 1) "<" (.floatLit 1) (.floatLit 2) 0 initialSt =
        .ok (.vbool (ratCmpSpec "<" 1 2)) initialSt) ∧
    (evalBinaryExpressionF (mkE 1) "<" (.intLit 1) (.floatLit 2) 0 initialSt =
        .ok (.vbool (ratCmpSpec "<" (1 : Int) 2)) initialSt) ∧
    (evalBinaryExpressionF (mkE 1) "<" (.floatLit 1) (.intLit 2) 0 initialSt =
        .ok (.vbool (ratCmpSpec "<" 1 (2 : Int))) initialSt) ∧
    (∀ a b : String,
      evalBinaryExpressionF (mkE 1) "<" (.strLit a) (.strLit b) 0 initialSt =
        .exn (.rerr ("unsupported operator '<' for types 'string' and 'string'"))
          initialSt) := by
  have h := c7_comparison_amended "<" (by decide) 0 1 2 1 2 0 initialSt
  simpa using h

theorem stepsArr_refl (id : Nat) (s : St) : stepsArr id s s := ⟨rfl, le_refl _⟩

theorem stepsArr_trans {id : Nat} {s1 s2 s3 : St} (h1 : stepsArr id s1 s2)
    (h2 : stepsArr id s2 s3) : stepsArr id s1 s3 :=
  ⟨h2.1.trans h1.1, h1.2.trans h2.2⟩

/-- The default (comparator-free) less function threads the state through
untouched. -/
theorem lessDefaultSt_preserves (id : Nat) :
    ∀ a b s e, SLPreserves id s (lessDefaultSt a b s e) := by
  intro a b s e
  unfold lessDefaultSt
  cases e with
  | some ex => exact stepsArr_refl id s
  | none =>
    cases sortLessDefault a b <;> exact stepsArr_refl id s

/-- When every comparator call preserves the argument array's store entry,
so does each comparison step of the sort. -/
theorem lessCmp_preserves (fns : EFns) (cmp : Value) (id : Nat)
    (h : PreservesArr fns cmp id) :
    ∀ a b s e, SLPreserves id s (lessCmp fns cmp a b s e) := by
  intro a b s e
  cases e with
  | some ex => exact stepsArr_refl id s
  | none =>
    have hres := h a b s
    unfold lessCmp
    cases hc : fns.callFn cmp [a, b] s with
    | timeout => trivial
    | ok v s' => rw [hc] at hres; cases v <;> exact hres
    | exn ex s' => rw [hc] at hres; exact hres

/-- Stable insertion preserves the argument array's store entry as long as
each comparison does. -/
theorem insertSt_preserves (less : Value → Value → St → Option Exn → SortLessRes)
    (id : Nat) (hless : ∀ a b s e, SLPreserves id s (less a b s e)) :
    ∀ (x : Value) (l : List Value) (s : St) (e : Option Exn),
      SRPreserves id s (insertSt less x l s e) := by
  intro x l
  induction l with
  | nil => intro s e; exact stepsArr_refl id s
  | cons y ys ih =>
    intro s e
    have h1 := hless x y s e
    cases hc : less x y s e with
    | timeout => simp only [insertSt, hc]; trivial
    | done lt s' e' =>
      rw [hc] at h1
      cases lt with
      | true =>
        simp only [insertSt, hc]
        rw [if_pos trivial]
        exact h1
      | false =>
        have h2 := ih s' e'
        cases hi : insertSt less x ys s' e' with
        | timeout => simp only [insertSt, hc, hi]; rw [if_neg (by simp)]; trivial
        | done zs s'' e'' =>
          rw [hi] at h2
          simp only [insertSt, hc, hi]
          rw [if_neg (by simp)]
          exact stepsArr_trans h1 h2

/-- The whole insertion-sort pass preserves the argument array's store
entry. -/
theorem sortSt_preserves (less : Value → Value → St → Option Exn → SortLessRes)
    (id : Nat) (hless : ∀ a b s e, SLPreserves id s (less a b s e)) :
    ∀ (l acc : List Value) (s : St) (e : Option Exn),
      SRPreserves id s (sortSt less acc l s e) := by
  intro l
  induction l with
  | nil => intro acc s e; exact stepsArr_refl id s
  | cons x xs ih =>
    intro acc s e
    have h1 := insertSt_preserves less id hless x acc s e
    cases hi : insertSt less x acc s e with
    | timeout => simp only [sortSt, hi]; trivial
    | done acc' s' e' =>
      rw [hi] at h1
      have h2 := ih acc' s' e'
      cases hs : sortSt less acc' xs s' e' with
      | timeout => simp only [sortSt, hi, hs]; trivial
      | done l2 s2 e2 =>
        rw [hs] at h2
        simp only [sortSt, hi, hs]
        exact stepsArr_trans h1 h2

/-- Running the sort tail on the copied elements yields either a freshly
allocated result array with the argument entry intact, an error with the
argument entry intact, or a fuel timeout. -/
theorem sortOutcome_spec (less : Value → Value → St → Option Exn → SortLessRes)
    (id : Nat) (elems : List Value) (s : St)
    (hless : ∀ a b st e, SLPreserves id st (less a b st e))
    (hid : id < s.arrays.length) (harr : s.arrays.get? id = some elems) :
    (∃ (s₃ : St) (newId : Nat) (sorted : List Value),
        sortOutcome less elems s = .ok (.varr newId) s₃ ∧ newId ≠ id ∧
        s₃.arrays.get? id = some elems ∧ s₃.arrays.get? newId = some sorted) ∨
    (∃ e s₂, sortOutcome less elems s = .exn e s₂ ∧
        s₂.arrays.get? id = some elems) ∨
    sortOutcome less elems s = .timeout := by
  have hp := sortSt_preserves less id hless elems [] s none
  unfold sortOutcome
  cases hs : sortSt less [] elems s none with
  | timeout => right; right; rfl
  | done sorted s' e' =>
    rw [hs] at hp
    have hp' : stepsArr id s s' := hp
    cases e' with
    | some ex =>
      right; left
      exact ⟨ex, s', rfl, by rw [hp'.1, harr]⟩
    | none =>
      left
      have hlen := hp'.2
      refine ⟨{ s' with arrays := s'.arrays ++ [sorted] }, s'.arrays.length,
        sorted, rfl, by omega, ?_, ?_⟩
      · show (s'.arrays ++ [sorted]).get? id = some elems
        rw [List.get?_append (by omega), hp'.1, harr]
      · show (s'.arrays ++ [sorted]).get? s'.arrays.length = some sorted
        exact List.get?_concat_length _ _

/-- C10.  Frame property of the built-in `sort`: for both forms (with or
without a comparator) the call returns a freshly allocated array — a store
entry distinct from the argument's — and the argument array's element
sequence is unchanged; for the comparator form this holds provided each
comparator invocation leaves the argument's entry unchanged (and, as every
evaluator step does, only grows the arrays store).  The `timeout` disjunct
is the fuel artifact of the embedding. -/
theorem c10_sort_frame (fns : EFns) (id : Nat) (elems : List Value)
    (rest : List Value) (s : St)
    (harr : s.arrays.get? id = some elems)
    (hcmp : ∀ cmp, rest = [cmp] → PreservesArr fns cmp id) :
    (∃ (s₃ : St) (newId : Nat) (sorted : List Value),
        builtinSortFn fns (.varr id :: rest) s = .ok (.varr newId) s₃ ∧
        newId ≠ id ∧ s₃.arrays.get? id = some elems ∧
        s₃.arrays.get? newId = some sorted) ∨
    (∃ e s₂, builtinSortFn fns (.varr id :: rest) s = .exn e s₂ ∧
        s₂.arrays.get? id = some elems) ∨
    builtinSortFn fns (.varr id :: rest) s = .timeout := by
  obtain ⟨hid, -⟩ := List.get?_eq_some.mp harr
  cases rest with
  | nil =>
    have e0 : builtinSortFn fns [Value.varr id] s =
        (match s.arrays.get? id with
          | none => Res.exn (.rerr "panic: invalid array reference") s
          | some elems => sortOutcome lessDefaultSt elems s) := rfl
    rw [e0, harr]
    exact sortOutcome_spec lessDefaultSt id elems s (lessDefaultSt_preserves id)
      hid harr
  | cons cmp rest2 =>
    cases rest2 with
    | nil =>
      cases cmp with
      | vfn nm params body envId =>
        have e0 : builtinSortFn fns [Value.varr id, .vfn nm params body envId] s =
            (match s.arrays.get? id with
              | none => Res.exn (.rerr "panic: invalid array reference") s
              | some elems =>
                sortOutcome (lessCmp fns (.vfn nm params body envId)) elems s) := rfl
        rw [e0, harr]
        exact sortOutcome_spec _ id elems s
          (lessCmp_preserves fns _ id (hcmp _ rfl)) hid harr
      | vbuiltin nm =>
        have e0 : builtinSortFn fns [Value.varr id, .vbuiltin nm] s =
            (match s.arrays.get? id with
              | none => Res.exn (.rerr "panic: invalid array reference") s
              | some elems =>
                sortOutcome (lessCmp fns (.vbuiltin nm)) elems s) := rfl
        rw [e0, harr]
        exact sortOutcome_spec _ id elems s
          (lessCmp_preserves fns _ id (hcmp _ rfl)) hid harr
      | vint n =>
        have e0 : builtinSortFn fns [Value.varr id, .vint n] s =
            .exn (.rerr ("sort: second argument must be a function, got " ++
              typeName (.vint n))) s := by
          have h0 : builtinSortFn fns [Value.varr id, .vint n] s =
              (match s.arrays.get? id with
                | none => Res.exn (.rerr "panic: invalid array reference") s
                | some _ =>
                  Res.exn (.rerr ("sort: second argument must be a function, got " ++
                    typeName (.vint n))) s) := rfl
          rw [h0, harr]
        exact Or.inr (Or.inl ⟨_, s, e0, harr⟩)
      | vfloat q =>
        have e0 : builtinSortFn fns [Value.varr id, .vfloat q] s =
            .exn (.rerr ("sort: second argument must be a function, got " ++
              typeName (.vfloat q))) s := by
          have h0 : builtinSortFn fns [Value.varr id, .vfloat q] s =
              (match s.arrays.get? id with
                | none => Res.exn (.rerr "panic: invalid array reference") s
                | some _ =>
                  Res.exn (.rerr ("sort: second argument must be a function, got " ++
                    typeName (.vfloat q))) s) := rfl
          rw [h0, harr]
        exact Or.inr (Or.inl ⟨_, s, e0, harr⟩)
      | vbool b =>
        have e0 : builtinSortFn fns [Value.varr id, .vbool b] s =
            .exn (.rerr ("sort: second argument must be a function, got " ++
              typeName (.vbool b))) s := by
          have h0 : builtinSortFn fns [Value.varr id, .vbool b] s =
              (match s.arrays.get? id with
                | none => Res.exn (.rerr "panic: invalid array reference") s
                | some _ =>
                  Res.exn (.rerr ("sort: second argument must be a function, got " ++
                    typeName (.vbool b))) s) := rfl
          rw [h0, harr]
        exact Or.inr (Or.inl ⟨_, s, e0, harr⟩)
      | vstr str =>
        have e0 : builtinSortFn fns [Value.varr id, .vstr str] s =
            .exn (.rerr ("sort: second argument must be a function, got " ++
              typeName (.vstr str))) s := by
          have h0 : builtinSortFn fns [Value.varr id, .vstr str] s =
              (match s.arrays.get? id with
                | none => Res.exn (.rerr "panic: invalid array reference") s
                | some _ =>
                  Res.exn (.rerr ("sort: second argument must be a function, got " ++
                    typeName (.vstr str))) s) := rfl
          rw [h0, harr]
        exact Or.inr (Or.inl ⟨_, s, e0, harr⟩)
      | vnone =>
        have e0 : builtinSortFn fns [Value.varr id, .vnone] s =
            .exn (.rerr ("sort: second argument must be a function, got " ++
              typeName .vnone)) s := by
          have h0 : builtinSortFn fns [Value.varr id, .vnone] s =
              (match s.arrays.get? id with
                | none => Res.exn (.rerr "panic: invalid array reference") s
                | some _ =>
                  Res.exn (.rerr ("sort: second argument must be a function, got " ++
                    typeName .vnone)) s) := rfl
          rw [h0, harr]
        exact Or.inr (Or.inl ⟨_, s, e0, harr⟩)
      | varr j =>
        have e0 : builtinSortFn fns [Value.varr id, .varr j] s =
            .exn (.rerr ("sort: second argument must be a function, got " ++
              typeName (.varr j))) s := by
          have h0 : builtinSortFn fns [Value.varr id, .varr j] s =
              (match s.arrays.get? id with
                | none => Res.exn (.rerr "panic: invalid array reference") s
                | some _ =>
                  Res.exn (.rerr ("sort: second argument must be a function, got " ++
                    typeName (.varr j))) s) := rfl
          rw [h0, harr]
        exact Or.inr (Or.inl ⟨_, s, e0, harr⟩)
      | vmap j =>
        have e0 : builtinSortFn fns [Value.varr id, .vmap j] s =
            .exn (.rerr ("sort: second argument must be a function, got " ++
              typeName (.vmap j))) s := by
          have h0 : builtinSortFn fns [Value.varr id, .vmap j] s =
              (match s.arrays.get? id with
                | none => Res.exn (.rerr "panic: invalid array reference") s
                | some _ =>
                  Res.exn (.rerr ("sort: second argument must be a function, got " ++
                    typeName (.vmap j))) s) := rfl
          rw [h0, harr]
        exact Or.inr (Or.inl ⟨_, s, e0, harr⟩)
      | vrange a b st =>
        have e0 : builtinSortFn fns [Value.varr id, .vrange a b st] s =
            .exn (.rerr ("sort: second argument must be a function, got " ++
              typeName (.vrange a b st))) s := by
          have h0 : builtinSortFn fns [Value.varr id, .vrange a b st] s =
              (match s.arrays.get? id with
                | none => Res.exn (.rerr "panic: invalid array reference") s
                | some _ =>
                  Res.exn (.rerr ("sort: second argument must be a function, got " ++
                    typeName (.vrange a b st))) s) := rfl
          rw [h0, harr]
        exact Or.inr (Or.inl ⟨_, s, e0, harr⟩)
    | cons w rest3 =>
      have hgt : (Value.varr id :: cmp :: w :: rest3).length < 1 ∨
          (Value.varr id :: cmp :: w :: rest3).length > 2 := by
        simp [List.length_cons]
      have e0 : builtinSortFn fns (Value.varr id :: cmp :: w :: rest3) s =
          .exn (.rerr ("sort expects 1 or 2 arguments (array [, fn]), got " ++
            toString (Value.varr id :: cmp :: w :: rest3).length)) s := by
        unfold builtinSortFn
        rw [if_pos hgt]
      exact Or.inr (Or.inl ⟨_, s, e0, harr⟩)

/-- Witness for C10: one-argument `sort` of the stored array `[2, 1]` —
the success disjunct holds: a fresh array at a new store index, the
original entry intact. -/
theorem c10_sort_witness :
    (∃ (s₃ : St) (newId : Nat) (sorted : List Value),
        builtinSortFn (mkE 1) [.varr 0] ⟨[], [[.vint 2, .vint 1]], []⟩ =
            .ok (.varr newId) s₃ ∧
        newId ≠ 0 ∧ s₃.arrays.get? 0 = some [.vint 2, .vint 1] ∧
        s₃.arrays.get? newId = some sorted) ∨
    (∃ e s₂, builtinSortFn (mkE 1) [.varr 0] ⟨[], [[.vint 2, .vint 1]], []⟩ =
          .exn e s₂ ∧
        s₂.arrays.get? 0 = some [.vint 2, .vint 1]) ∨
    builtinSortFn (mkE 1) [.varr 0] ⟨[], [[.vint 2, .vint 1]], []⟩ = .timeout :=
  c10_sort_frame (mkE 1) 0 [.vint 2, .vint 1] [] ⟨[], [[.vint 2, .vint 1]], []⟩
    rfl (fun cmp h => by simp at h)

end Glace
